import Mathlib

/-!
Verification of the session-multiplexing engine of the `hackerterm` terminal
emulator: PTY session table (main process), pane layout trees, tab management
and focus navigation (renderer process).
-/

namespace HackerTerm

/-! ## DOM layout tree

A tab's pane layout lives in the DOM: pane leaves are `div.pane` elements,
split containers are `div.split-horizontal` / `div.split-vertical` elements,
and each split holds a `div.split-divider` between its two children.
-/

/-- A node of the DOM subtree that holds a tab's pane layout. -/
inductive DomNode where
  | pane (paneId : Nat)
  | divider
  | split (horizontal : Bool) (children : List DomNode)

mutual

/-- Boolean equality on DOM nodes (deriving cannot handle the nested list). -/
def DomNode.beq : DomNode → DomNode → Bool
  | .pane p, .pane q => p == q
  | .divider, .divider => true
  | .split h cs, .split h' cs' => h == h' && DomNode.beqL cs cs'
  | _, _ => false

/-- Boolean equality on lists of DOM nodes. -/
def DomNode.beqL : List DomNode → List DomNode → Bool
  | [], [] => true
  | c :: cs, d :: ds => DomNode.beq c d && DomNode.beqL cs ds
  | _, _ => false

end

mutual

theorem DomNode.beq_iff : ∀ a b : DomNode, DomNode.beq a b = true ↔ a = b
  | .pane p, .pane q => by simp [DomNode.beq]
  | .pane _, .divider => by simp [DomNode.beq]
  | .pane _, .split _ _ => by simp [DomNode.beq]
  | .divider, .pane _ => by simp [DomNode.beq]
  | .divider, .divider => by simp [DomNode.beq]
  | .divider, .split _ _ => by simp [DomNode.beq]
  | .split _ _, .pane _ => by simp [DomNode.beq]
  | .split _ _, .divider => by simp [DomNode.beq]
  | .split h cs, .split h' cs' => by
      simp [DomNode.beq, DomNode.beqL_iff cs cs']

theorem DomNode.beqL_iff : ∀ a b : List DomNode, DomNode.beqL a b = true ↔ a = b
  | [], [] => by simp [DomNode.beqL]
  | [], _ :: _ => by simp [DomNode.beqL]
  | _ :: _, [] => by simp [DomNode.beqL]
  | c :: cs, d :: ds => by
      simp [DomNode.beqL, DomNode.beq_iff c d, DomNode.beqL_iff cs ds]

end

instance : DecidableEq DomNode := fun a b => decidable_of_iff _ (DomNode.beq_iff a b)

mutual

/-- Whether a pane element with the given id occurs anywhere in the node. -/
def containsPane (pid : Nat) : DomNode → Bool
  | .pane q => q == pid
  | .divider => false
  | .split _ cs => containsPaneL pid cs

/-- Whether a pane element with the given id occurs anywhere in the forest. -/
def containsPaneL (pid : Nat) : List DomNode → Bool
  | [] => false
  | c :: cs => containsPane pid c || containsPaneL pid cs

end

/-- Whether a node is a `div.split-divider` element
    (`c.classList.contains('split-divider')`). -/
def isDivider : DomNode → Bool
  | .divider => true
  | _ => false

mutual

/-- `splitPane`'s DOM restructuring: the leaf `pid` is replaced, in its parent's
child list, by a new split container holding the original pane element, a fresh
divider, and the freshly created pane element — this models
`parentElement.insertBefore(splitContainer, pane.element)`,
`splitContainer.appendChild(pane.element)`, `splitContainer.appendChild(divider)`
followed by `createPane` appending the new pane element to `splitContainer`. -/
def splitAt (pid : Nat) (horizontal : Bool) (newPid : Nat) : DomNode → DomNode
  | .pane q =>
      if q == pid then .split horizontal [.pane q, .divider, .pane newPid]
      else .pane q
  | .divider => .divider
  | .split o cs => .split o (splitAtL pid horizontal newPid cs)

/-- `splitAt` mapped over a child list. -/
def splitAtL (pid : Nat) (horizontal : Bool) (newPid : Nat) : List DomNode → List DomNode
  | [] => []
  | c :: cs => splitAt pid horizontal newPid c :: splitAtL pid horizontal newPid cs

end

mutual

/-- Removal of every descendant divider of a node, modelling
`parent.querySelectorAll('.split-divider').forEach(d => d.remove())` applied to
the subtrees that survive under `parent` in `closePane`. -/
def stripDividers : DomNode → DomNode
  | .pane q => .pane q
  | .divider => .divider
  | .split o cs => .split o (stripDividersL cs)

/-- `stripDividers` over a child list, dropping the dividers of this level. -/
def stripDividersL : List DomNode → List DomNode
  | [] => []
  | .divider :: cs => stripDividersL cs
  | c :: cs => stripDividers c :: stripDividersL cs

end

/-- Whether a pane element with id `pid` is a direct child of the list. -/
def hasDirectPane (pid : Nat) (cs : List DomNode) : Bool :=
  cs.any fun c => match c with
    | .pane q => q == pid
    | _ => false

/-- `pane.element.remove()`: drops the direct child pane element with id `pid`. -/
def removeDirectPane (pid : Nat) (cs : List DomNode) : List DomNode :=
  cs.filter fun c => match c with
    | .pane q => !(q == pid)
    | _ => true

mutual

/-- `closePane`'s DOM restructuring, as the replacement a node contributes to
its parent's child list. When the closed pane is a direct child of a split
container (`parent.classList.contains('split-…')`), the pane element is
removed, every divider under the container is removed
(`parent.querySelectorAll('.split-divider')` is recursive), and then:
one surviving child is hoisted into the grandparent's slot
(`grandparent.insertBefore(remaining[0], parent); parent.remove()`),
zero surviving children remove the container, and with two or more the
container stays. A pane whose parent is not a split (the tab content element)
is simply removed. -/
def closeNode (pid : Nat) : DomNode → List DomNode
  | .pane q => if q == pid then [] else [.pane q]
  | .divider => [.divider]
  | .split o cs =>
      if hasDirectPane pid cs then
        let remaining := (removeDirectPane pid cs).filter fun c => !(isDivider c)
        match remaining with
        | [x] => [stripDividers x]
        | [] => []
        | xs => [.split o (stripDividersL xs)]
      else
        [.split o (closeNodeL pid cs)]

/-- `closeNode` over a child list. -/
def closeNodeL (pid : Nat) : List DomNode → List DomNode
  | [] => []
  | c :: cs => closeNode pid c ++ closeNodeL pid cs

end

mutual

/-- The DOM effect of `destroyAllPanesInTab` on a tab's layout subtree:
every pane element is removed (`pane.element.remove()`); split containers and
dividers are left in place (the whole content element is removed afterwards by
`closeTab`). -/
def removePanes : DomNode → List DomNode
  | .pane _ => []
  | .divider => [.divider]
  | .split o cs => [.split o (removePanesL cs)]

/-- `removePanes` over a child list. -/
def removePanesL : List DomNode → List DomNode
  | [] => []
  | c :: cs => removePanes c ++ removePanesL cs

end

mutual

/-- Modelled from the spec: the "layout-tree flattening (depth-first) order"
of the panes of a tab's tree, used by §4.5's description of `next()`. -/
def layoutDfsPanes : DomNode → List Nat
  | .pane q => [q]
  | .divider => []
  | .split _ cs => layoutDfsPanesL cs

/-- Modelled from the spec: depth-first pane order of a forest. -/
def layoutDfsPanesL : List DomNode → List Nat
  | [] => []
  | c :: cs => layoutDfsPanes c ++ layoutDfsPanesL cs

end

/-! ## Main process: the PTY session table

`const ptyProcesses = new Map(); let terminalIdCounter = 0;` — the id→session
map, keyed by terminal id, plus the id counter. The OS process handle is
abstracted to the observable state the IPC handlers act on: the working
directory the process was spawned with, the bytes written to its stdin
(`entry.pty.write`), and its terminal grid size (`entry.pty.resize`).
The `webContents` stored with each entry is assumed live (its
`isDestroyed()` guard concerns window teardown, outside this model). -/

/-- One entry of `ptyProcesses`. -/
structure PtyEntry where
  cwd : String
  input : List String
  cols : Nat
  rows : Nat
  deriving Repr, DecidableEq

/-- The main process state: `ptyProcesses` (a JS `Map`, so unique keys in
insertion order) and `terminalIdCounter`. -/
structure MState where
  ptys : List (Nat × PtyEntry)
  counter : Nat
  deriving Repr, DecidableEq

/-- The keys of the session table. -/
def mkeys (m : MState) : List Nat := m.ptys.map Prod.fst

/-- `ptyProcesses.get(id)`. -/
def mget (m : MState) (id : Nat) : Option PtyEntry :=
  (m.ptys.find? fun e => e.1 == id).map Prod.snd

/-- `ptyProcesses.delete(id)`. -/
def mdel (m : MState) (id : Nat) : MState :=
  { m with ptys := m.ptys.filter fun e => !(e.1 == id) }

/-- `createPtyProcess(initialCwd)`:
`const terminalId = ++terminalIdCounter; const cwd = initialCwd || homeDir;`
then `pty.spawn(..., { cols: 80, rows: 24, cwd, ... })` and
`ptyProcesses.set(terminalId, { pty, webContents })`. A JS `null` cwd is
`none`; `initialCwd || homeDir` also falls back on the empty string. -/
def createPtyProcess (homeDir : String) (m : MState) (initialCwd : Option String) :
    Nat × MState :=
  let terminalId := m.counter + 1
  let cwd := match initialCwd with
    | some c => if c = "" then homeDir else c
    | none => homeDir
  (terminalId,
    { ptys := m.ptys ++ [(terminalId, { cwd := cwd, input := [], cols := 80, rows := 24 })]
      counter := terminalId })

/-- The `terminal-get-cwd` handler: `null` for an unknown id, otherwise a
best-effort `lsof` probe of the shell's cwd. `probe` models the trimmed
`execSync` output (`none` models the `catch` branch); the handler returns
`cwd || null`, so an empty probe result is also `null`. -/
def terminalGetCwd (probe : Nat → Option String) (m : MState) (tid : Nat) :
    Option String :=
  match mget m tid with
  | none => none
  | some _ =>
      match probe tid with
      | none => none
      | some out => if out = "" then none else some out

/-- The `terminal-destroy` handler: if the entry exists, `entry.pty.kill()`
and `ptyProcesses.delete(terminalId)`; otherwise nothing. -/
def terminalDestroy (m : MState) (tid : Nat) : MState :=
  match mget m tid with
  | none => m
  | some _ => mdel m tid

/-- The `terminal-input` handler: `entry.pty.write(data)` when the entry
exists, a silent no-op otherwise. -/
def terminalInput (m : MState) (tid : Nat) (data : String) : MState :=
  match mget m tid with
  | none => m
  | some _ =>
      { m with
        ptys := m.ptys.map fun e =>
          if e.1 == tid then (e.1, { e.2 with input := e.2.input ++ [data] }) else e }

/-- The `terminal-resize` handler: `entry.pty.resize(cols, rows)` when the
entry exists, a silent no-op otherwise. -/
def terminalResize (m : MState) (tid : Nat) (cols rows : Nat) : MState :=
  match mget m tid with
  | none => m
  | some _ =>
      { m with
        ptys := m.ptys.map fun e =>
          if e.1 == tid then (e.1, { e.2 with cols := cols, rows := rows }) else e }

/-- The `ptyProcess.onData` callback: the `terminal-data` message it sends to
the renderer, or `none` when `ptyProcesses.get(terminalId)` finds no entry
(the guard drops output of an already-destroyed session). -/
def onDataMessage (m : MState) (tid : Nat) (data : String) : Option (Nat × String) :=
  match mget m tid with
  | none => none
  | some _ => some (tid, data)

/-- The `ptyProcess.onExit` callback: sends `terminal-exit` when the entry is
still present, then deletes the entry in either case. -/
def onExitStep (m : MState) (tid : Nat) (exitCode : Int) :
    MState × Option (Nat × Int) :=
  match mget m tid with
  | none => (mdel m tid, none)
  | some _ => (mdel m tid, some (tid, exitCode))

/-- The commands and events the main process serves on the session table. -/
inductive MCmd where
  | create (cwd : Option String)
  | destroy (id : Nat)
  | input (id : Nat) (data : String)
  | resize (id : Nat) (cols rows : Nat)
  | procExit (id : Nat) (code : Int)
  deriving Repr, DecidableEq

/-- One dispatcher step: the state after serving a command, plus the id a
`terminal-create` invocation returns. -/
def mstep (homeDir : String) (m : MState) : MCmd → MState × Option Nat
  | .create cwd =>
      let r := createPtyProcess homeDir m cwd
      (r.2, some r.1)
  | .destroy id => (terminalDestroy m id, none)
  | .input id d => (terminalInput m id d, none)
  | .resize id c r => (terminalResize m id c r, none)
  | .procExit id code => ((onExitStep m id code).1, none)

/-- Running a command list from a state, collecting the returned session ids
in order. -/
def mrun (homeDir : String) (m : MState) : List MCmd → MState × List Nat
  | [] => (m, [])
  | c :: cs =>
      let r := mstep homeDir m c
      let rest := mrun homeDir r.1 cs
      (rest.1, (match r.2 with | some i => [i] | none => []) ++ rest.2)

/-- The empty session table the main process starts from. -/
def initM : MState := { ptys := [], counter := 0 }

/-! ## Renderer: PaneManager and TabManager

The combined state of the renderer's `PaneManager` and `TabManager` together
with the main-process session table they drive over IPC. Pane entries keep a
`buffer` of the strings written to their xterm view (`pane.terminal.write`).
The `setTimeout` bodies in the source (`refitAllPanesInTab`, the 50 ms fit in
`createPane`, the 1000 ms exit grace period) run asynchronously; they are
modelled as separate step functions, not as part of the synchronous
operations that schedule them. -/

/-- One entry of `PaneManager.panes`. -/
structure PaneEntry where
  paneId : Nat
  tabId : Nat
  terminalId : Nat
  buffer : List String
  deriving Repr, DecidableEq

/-- Renderer + main state: `PaneManager.panes` / `paneIdCounter` /
`focusedPaneId`, `TabManager.tabs` / `tabIdCounter` / `activeTabId`, the
per-tab DOM layout (children of each tab's content element), and the session
table `m`. JS `Map`s iterate in insertion order, hence the lists. -/
structure SysState where
  m : MState
  panes : List PaneEntry
  paneIdCounter : Nat
  focusedPaneId : Option Nat
  tabs : List Nat
  trees : List (Nat × List DomNode)
  tabIdCounter : Nat
  activeTabId : Option Nat
  deriving DecidableEq

/-- `this.panes.get(paneId)`. -/
def paneGet (s : SysState) (pid : Nat) : Option PaneEntry :=
  s.panes.find? fun p => p.paneId == pid

/-- `getPanesForTab`: `Array.from(this.panes.values()).filter(p => p.tabId === tabId)`. -/
def getPanesForTab (s : SysState) (tabId : Nat) : List PaneEntry :=
  s.panes.filter fun p => p.tabId == tabId

/-- `getPaneCountForTab`. -/
def getPaneCountForTab (s : SysState) (tabId : Nat) : Nat :=
  (getPanesForTab s tabId).length

/-- The layout forest of a tab's content element (empty when the tab is
unknown). -/
def treeGet (s : SysState) (tabId : Nat) : List DomNode :=
  ((s.trees.find? fun e => e.1 == tabId).map Prod.snd).getD []

/-- Replace a tab's layout forest. -/
def treeSet (trees : List (Nat × List DomNode)) (tabId : Nat) (t : List DomNode) :
    List (Nat × List DomNode) :=
  trees.map fun e => if e.1 == tabId then (e.1, t) else e

/-- `focusPane(paneId)`: records the focused pane when it exists (the CSS class
toggles and `terminal.focus()` are view-only). -/
def focusPane (s : SysState) (pid : Nat) : SysState :=
  match paneGet s pid with
  | none => s
  | some _ => { s with focusedPaneId := some pid }

/-- The state effects of `createPane(tabId, container, cwd)` shared by its two
call sites: allocate `++this.paneIdCounter`, `ipcRenderer.invoke('terminal-create', cwd)`
(served by `createPtyProcess`), register the pane entry in `this.panes`, and
`this.focusPane(paneId)`. The caller attaches the new pane element to the
container it passed: the tab content element in `createTab`, the new split
container in `splitPane`. The deferred 50 ms fit/resize is a separate event. -/
def createPaneCore (homeDir : String) (s : SysState) (tabId : Nat)
    (cwd : Option String) : Nat × SysState :=
  let paneId := s.paneIdCounter + 1
  let r := createPtyProcess homeDir s.m cwd
  (paneId,
    { s with
      m := r.2
      paneIdCounter := paneId
      panes := s.panes ++ [{ paneId := paneId, tabId := tabId, terminalId := r.1, buffer := [] }]
      focusedPaneId := some paneId })

/-- `getPaneCwd(paneId)`: `null` for an unknown pane, otherwise
`ipcRenderer.invoke('terminal-get-cwd', pane.terminalId)`. -/
def getPaneCwd (probe : Nat → Option String) (s : SysState) (pid : Nat) :
    Option String :=
  match paneGet s pid with
  | none => none
  | some p => terminalGetCwd probe s.m p.terminalId

/-- `getFocusedPaneCwd()`. -/
def getFocusedPaneCwd (probe : Nat → Option String) (s : SysState) : Option String :=
  match s.focusedPaneId with
  | none => none
  | some pid => getPaneCwd probe s pid

/-- `splitPane(paneId, direction)`: no-op returning `null` for an unknown pane;
otherwise queries the split pane's cwd, builds the split container
(`isHorizontal = direction === 'vertical'`), and creates the new pane inside it
with the inherited cwd. Returns the new pane id. The deferred
`refitAllPanesInTab` is a separate event. -/
def splitPane (homeDir : String) (probe : Nat → Option String) (s : SysState)
    (paneId : Nat) (direction : String) : Option Nat × SysState :=
  match paneGet s paneId with
  | none => (none, s)
  | some pane =>
      let currentCwd := terminalGetCwd probe s.m pane.terminalId
      let isHorizontal := direction == "vertical"
      let r := createPaneCore homeDir s pane.tabId currentCwd
      let tree := splitAtL paneId isHorizontal r.1 (treeGet s pane.tabId)
      (some r.1, { r.2 with trees := treeSet r.2.trees pane.tabId tree })

/-- `closePane(paneId)`: no-op for an unknown pane; otherwise sends
`terminal-destroy`, removes the pane element from the DOM (collapsing a
single-child split container), disposes the terminal, deletes the map entry,
and re-points focus at the tab's first remaining pane when the closed pane was
focused. The deferred `refitAllPanesInTab` is a separate event. -/
def closePane (s : SysState) (paneId : Nat) : SysState :=
  match paneGet s paneId with
  | none => s
  | some pane =>
      let m' := terminalDestroy s.m pane.terminalId
      let panes' := s.panes.filter fun p => !(p.paneId == paneId)
      let tree' := closeNodeL paneId (treeGet s pane.tabId)
      let s' := { s with m := m', panes := panes'
                       , trees := treeSet s.trees pane.tabId tree' }
      if s.focusedPaneId = some paneId then
        match getPanesForTab s' pane.tabId with
        | [] => { s' with focusedPaneId := none }
        | q :: _ => focusPane s' q.paneId
      else
        s'

/-- `switchTab(tabId)`: no-op for an unknown tab; otherwise toggles the
`active` classes (view-only), sets `activeTabId`, and focuses the tab's first
pane in map order when it has one. The deferred `refitAllPanesInTab` is a
separate event. -/
def switchTab (s : SysState) (tabId : Nat) : SysState :=
  if s.tabs.contains tabId then
    match getPanesForTab { s with activeTabId := some tabId } tabId with
    | [] => { s with activeTabId := some tabId }
    | q :: _ => focusPane { s with activeTabId := some tabId } q.paneId
  else
    s

/-- `createTab()`: queries the focused pane's cwd, allocates
`++this.tabIdCounter`, registers the tab and its (empty) content element,
creates the tab's first pane inside the content element with the inherited
cwd, and switches to the new tab. Returns the tab id. -/
def createTab (homeDir : String) (probe : Nat → Option String) (s : SysState) :
    Nat × SysState :=
  let currentCwd := getFocusedPaneCwd probe s
  let tabId := s.tabIdCounter + 1
  let s1 := { s with tabIdCounter := tabId
                   , tabs := s.tabs ++ [tabId]
                   , trees := s.trees ++ [(tabId, [])] }
  let r := createPaneCore homeDir s1 tabId currentCwd
  let s3 := { r.2 with trees := treeSet r.2.trees tabId (treeGet r.2 tabId ++ [.pane r.1]) }
  (tabId, switchTab s3 tabId)

/-- `destroyAllPanesInTab(tabId)`: for each pane of the tab, send
`terminal-destroy`, dispose the terminal, remove the pane element, and delete
the map entry. -/
def destroyAllPanesInTab (s : SysState) (tabId : Nat) : SysState :=
  { s with
    m := (getPanesForTab s tabId).foldl (fun m p => terminalDestroy m p.terminalId) s.m
    panes := s.panes.filter fun p => !(p.tabId == tabId)
    trees := treeSet s.trees tabId (removePanesL (treeGet s tabId)) }

/-- The state `closeTab` reaches after `destroyAllPanesInTab(tabId)` and the
removal of the tab button and content element, before the active-tab fixup. -/
def postCloseTabState (s : SysState) (tabId : Nat) : SysState :=
  { destroyAllPanesInTab s tabId with
    tabs := (destroyAllPanesInTab s tabId).tabs.filter fun t => !(t == tabId)
    trees := (destroyAllPanesInTab s tabId).trees.filter fun e => !(e.1 == tabId) }

/-- `closeTab(tabId)`: no-op for an unknown tab; when it is the last remaining
tab, sends `window-close` (the returned flag) and leaves the state alone;
otherwise destroys the tab's panes, removes the tab and its content element,
and switches to the last remaining tab when the closed tab was active. -/
def closeTab (s : SysState) (tabId : Nat) : Bool × SysState :=
  if s.tabs.contains tabId then
    if s.tabs.length ≤ 1 then
      (true, s)
    else
      if s.activeTabId = some tabId then
        match (postCloseTabState s tabId).tabs.getLast? with
        | none => (false, postCloseTabState s tabId)
        | some t => (false, switchTab (postCloseTabState s tabId) t)
      else
        (false, postCloseTabState s tabId)
  else
    (false, s)

/-- The deferred body of `refitAllPanesInTab(tabId)` (a 50 ms `setTimeout`):
each pane of the tab is refit and a `terminal-resize` is sent for it. `fit`
models the grid size `fitAddon` derives from the pane's pixel geometry. -/
def refitAllPanesInTab (fit : Nat → Nat × Nat) (s : SysState) (tabId : Nat) : SysState :=
  { s with
    m := (getPanesForTab s tabId).foldl
      (fun m p => terminalResize m p.terminalId (fit p.paneId).1 (fit p.paneId).2) s.m }

/-- Writing to the first pane bound to a terminal id
(`for (const pane of this.panes.values()) { if (pane.terminalId === terminalId)
{ pane.terminal.write(data); break; } }`). -/
def writeToFirstPaneWith (panes : List PaneEntry) (tid : Nat) (data : String) :
    List PaneEntry :=
  match panes with
  | [] => []
  | p :: rest =>
      if p.terminalId == tid then { p with buffer := p.buffer ++ [data] } :: rest
      else p :: writeToFirstPaneWith rest tid data

/-- The renderer's `terminal-data` handler: write the payload into the first
pane bound to the session, silently do nothing when no pane matches. -/
def terminalDataHandler (s : SysState) (tid : Nat) (data : String) : SysState :=
  { s with panes := writeToFirstPaneWith s.panes tid data }

/-- The immediate part of the renderer's `terminal-exit` handler: write the
exit banner into the first pane bound to the session and return the
`(paneId, tabId)` the scheduled grace-period callback captures; no pane, no
effect and nothing scheduled. -/
def terminalExitImmediate (s : SysState) (tid : Nat) (exitCode : Int) :
    SysState × Option (Nat × Nat) :=
  match s.panes.find? fun p => p.terminalId == tid with
  | none => (s, none)
  | some p =>
      let banner := s!"\r\n\x1b[33m[Process exited with code {exitCode}]\x1b[0m\r\n"
      ({ s with panes := writeToFirstPaneWith s.panes tid banner },
       some (p.paneId, p.tabId))

/-- The 1000 ms grace-period callback of the `terminal-exit` handler, run
against the state current when the timer fires, with the pane id and the
pane's tab id captured at event time:
`if (this.getPaneCountForTab(pane.tabId) > 1) this.closePane(paneId)`. -/
def exitGraceStep (s : SysState) (capturedPaneId capturedTabId : Nat) : SysState :=
  if 1 < getPaneCountForTab s capturedTabId then closePane s capturedPaneId else s

/-- The renderer's initial state: no tabs, no panes, empty session table. -/
def initState : SysState :=
  { m := initM, panes := [], paneIdCounter := 0, focusedPaneId := none
    tabs := [], trees := [], tabIdCounter := 0, activeTabId := none }

/-! ## Focus navigation -/

/-- A pane element's bounding box (`getBoundingClientRect`), supplied by the
layout/view side. -/
structure Rect where
  rleft : ℚ
  rtop : ℚ
  rwidth : ℚ
  rheight : ℚ

/-- A pane's center position as computed in `focusDirection`
(`rect.left + rect.width / 2`, `rect.top + rect.height / 2`). -/
structure Pos where
  paneId : Nat
  x : ℚ
  y : ℚ

/-- The four direction strings `focusDirection`'s `switch` dispatches on. -/
inductive Dir where
  | up
  | down
  | left
  | right
  deriving Repr, DecidableEq

/-- The eligibility test of `focusDirection`'s `switch`: the primary-axis
center delta must strictly exceed the 10-unit dead zone in the requested
direction (`dy < -10`, `dy > 10`, `dx < -10`, `dx > 10`). -/
def dirEligible (direction : Dir) (current p : Pos) : Bool :=
  match direction with
  | .up => decide (p.y - current.y < -10)
  | .down => decide (p.y - current.y > 10)
  | .left => decide (p.x - current.x < -10)
  | .right => decide (p.x - current.x > 10)

/-- The score of `focusDirection`'s `switch`:
`Math.abs(primary) + Math.abs(cross) * 0.5`. -/
def dirScore (direction : Dir) (current p : Pos) : ℚ :=
  match direction with
  | .up => |p.y - current.y| + |p.x - current.x| * (1 / 2)
  | .down => |p.y - current.y| + |p.x - current.x| * (1 / 2)
  | .left => |p.x - current.x| + |p.y - current.y| * (1 / 2)
  | .right => |p.x - current.x| + |p.y - current.y| * (1 / 2)

/-- One accumulator step of the best-candidate selection: replace the best
when the new score is strictly smaller (`distance < bestScore`), keeping the
first-encountered candidate on ties; `none` is `bestScore = Infinity`. -/
def pickMin (acc : Option (Nat × ℚ)) (e : Nat × ℚ) : Option (Nat × ℚ) :=
  match acc with
  | none => some e
  | some a => if e.2 < a.2 then some e else a

/-- A pane's center position as mapped in `focusDirection`:
`rect.left + rect.width / 2`, `rect.top + rect.height / 2`. -/
def paneCenterPos (rects : Nat → Rect) (p : PaneEntry) : Pos :=
  { paneId := p.paneId
    x := (rects p.paneId).rleft + (rects p.paneId).rwidth / 2
    y := (rects p.paneId).rtop + (rects p.paneId).rheight / 2 }

/-- The candidate loop of `focusDirection`: `bestCandidate = null`,
`bestScore = Infinity` (the `none` accumulator), then for each position other
than the focused pane's, eligibility and score per direction, taking a
candidate when `isValidDirection && distance < bestScore`. -/
def scanCandidates (fid : Nat) (direction : Dir) (current : Pos) :
    List Pos → Option (Nat × ℚ) → Option (Nat × ℚ)
  | [], best => best
  | p :: rest, best =>
      if p.paneId == fid then scanCandidates fid direction current rest best
      else
        let eligible : Bool := dirEligible direction current p
        let distance : ℚ := dirScore direction current p
        let takes : Bool :=
          eligible && (match best with
            | none => true
            | some b => decide (distance < b.2))
        scanCandidates fid direction current rest
          (if takes then some (p.paneId, distance) else best)

/-- `focusDirection(direction)`: geometric nearest-pane focus movement over the
centers of the focused pane's tab, leaving focus alone when no candidate is
valid (`if (bestCandidate) this.focusPane(bestCandidate)`; pane ids start at 1,
so the JS falsiness of `0` never fires). `rects` supplies
`getBoundingClientRect`. -/
def focusDirection (rects : Nat → Rect) (s : SysState) (direction : Dir) : SysState :=
  match s.focusedPaneId with
  | none => s
  | some fid =>
      match paneGet s fid with
      | none => s
      | some currentPane =>
          if (getPanesForTab s currentPane.tabId).length ≤ 1 then s
          else
            match ((getPanesForTab s currentPane.tabId).map (paneCenterPos rects)).find?
                fun p => p.paneId == fid with
            | none => s
            | some current =>
                match scanCandidates fid direction current
                    ((getPanesForTab s currentPane.tabId).map (paneCenterPos rects))
                    none with
                | none => s
                | some best => focusPane s best.1

/-- `focusNextPane()`: cyclic successor over `getPanesForTab`'s iteration
order (`currentIndex = findIndex; nextIndex = (currentIndex + 1) % length`).
`findIndex` always succeeds here because the focused pane is a member of its
own tab's list. -/
def focusNextPane (s : SysState) : SysState :=
  match s.focusedPaneId with
  | none => s
  | some fid =>
      match paneGet s fid with
      | none => s
      | some currentPane =>
          if (getPanesForTab s currentPane.tabId).length ≤ 1 then s
          else
            match (getPanesForTab s currentPane.tabId).get?
                ((((getPanesForTab s currentPane.tabId).findIdx
                    fun p => p.paneId == fid) + 1)
                  % (getPanesForTab s currentPane.tabId).length) with
            | none => s
            | some q => focusPane s q.paneId

/-! ### Spec-side selection functions -/

/-- Modelled from the spec (§4.5): the first minimum-score entry of a scored
candidate list, "ties resolved by first-encountered in a stable iteration
order". -/
def firstMinScore (l : List (Nat × ℚ)) : Option (Nat × ℚ) :=
  l.foldl pickMin none

/-- Modelled from the spec (§4.5): a pane's bounding-box center. -/
def specCenter (rects : Nat → Rect) (pid : Nat) : ℚ × ℚ :=
  ((rects pid).rleft + (rects pid).rwidth / 2,
   (rects pid).rtop + (rects pid).rheight / 2)

/-- Modelled from the spec (§4.5): the center-to-center `(dx, dy)` from the
focused pane to a candidate. -/
def specDelta (rects : Nat → Rect) (fid : Nat) (p : PaneEntry) : ℚ × ℚ :=
  ((specCenter rects p.paneId).1 - (specCenter rects fid).1,
   (specCenter rects p.paneId).2 - (specCenter rects fid).2)

/-- Modelled from the spec (§4.5): eligible iff the primary-axis delta
exceeds the 10-unit dead zone in the requested direction. -/
def specEligibleB (rects : Nat → Rect) (fid : Nat) (direction : Dir)
    (p : PaneEntry) : Bool :=
  match direction with
  | .up => decide ((specDelta rects fid p).2 < -10)
  | .down => decide ((specDelta rects fid p).2 > 10)
  | .left => decide ((specDelta rects fid p).1 < -10)
  | .right => decide ((specDelta rects fid p).1 > 10)

/-- Modelled from the spec (§4.5): score = |primary delta| + 0.5 × |cross
delta|. -/
def specScoreQ (rects : Nat → Rect) (fid : Nat) (direction : Dir)
    (p : PaneEntry) : ℚ :=
  match direction with
  | .up => |(specDelta rects fid p).2| + |(specDelta rects fid p).1| * (1 / 2)
  | .down => |(specDelta rects fid p).2| + |(specDelta rects fid p).1| * (1 / 2)
  | .left => |(specDelta rects fid p).1| + |(specDelta rects fid p).2| * (1 / 2)
  | .right => |(specDelta rects fid p).1| + |(specDelta rects fid p).2| * (1 / 2)

/-- Modelled from the spec (§4.5): the pane `focusDirection` should select —
candidates are the other panes of the focused pane's tab in iteration order;
a candidate is eligible iff its primary-axis center delta strictly exceeds the
10-unit dead zone in the requested direction; the score is
|primary delta| + 0.5 × |cross delta|; the minimum-score eligible candidate
wins, first-encountered on ties; no eligible candidate means no selection. -/
def specFocusTarget (rects : Nat → Rect) (s : SysState) (direction : Dir) :
    Option Nat :=
  match s.focusedPaneId with
  | none => none
  | some fid =>
      match paneGet s fid with
      | none => none
      | some currentPane =>
          (firstMinScore
            ((((getPanesForTab s currentPane.tabId).filter
                  fun p => !(p.paneId == fid)).filter
                (specEligibleB rects fid direction)).map
              fun p => (p.paneId, specScoreQ rects fid direction p))).map Prod.fst

/-- Modelled from the spec (§4.5): the cyclic successor of `x` in a pane-id
order, wrapping from the last entry to the first. -/
def cyclicNext (l : List Nat) (x : Nat) : Option Nat :=
  match l.findIdx? fun q => q == x with
  | none => none
  | some i => l.get? ((i + 1) % l.length)

/-- Modelled from the spec (§4.5): the pane `next()` should move focus to —
the cyclic successor of the focused pane in the depth-first flattening order
of its tab's layout tree. -/
def specDfsNext (s : SysState) : Option Nat :=
  match s.focusedPaneId with
  | none => none
  | some fid =>
      match paneGet s fid with
      | none => none
      | some currentPane =>
          cyclicNext (layoutDfsPanesL (treeGet s currentPane.tabId)) fid

/-- The state `splitPane` produces on a pane it finds, written out once so the
proofs below can project its fields (see `splitPane_eq`). -/
def postSplitState (homeDir : String) (probe : Nat → Option String) (s : SysState)
    (p : Nat) (direction : String) (pane : PaneEntry) : SysState :=
  { s with
    m := { ptys := s.m.ptys ++
            [(s.m.counter + 1,
              { cwd := match terminalGetCwd probe s.m pane.terminalId with
                  | some c => if c = "" then homeDir else c
                  | none => homeDir
                input := [], cols := 80, rows := 24 })]
           counter := s.m.counter + 1 }
    panes := s.panes ++
      [{ paneId := s.paneIdCounter + 1, tabId := pane.tabId
         terminalId := s.m.counter + 1, buffer := [] }]
    paneIdCounter := s.paneIdCounter + 1
    focusedPaneId := some (s.paneIdCounter + 1)
    trees := treeSet s.trees pane.tabId
      (splitAtL p (direction == "vertical") (s.paneIdCounter + 1)
        (treeGet s pane.tabId)) }

/-! ## Example states used by witnesses and counterexamples -/

/-- A cwd probe that always fails (`lsof` throwing); any probe would do. -/
def exProbe : Nat → Option String := fun _ => none

/-- The home directory used by the example states. -/
def exHome : String := "/home/u"

/-- One tab (id 1) holding one pane (id 1, session 1). -/
def oneTabState : SysState := (createTab exHome exProbe initState).2

/-- One tab, split once at pane 1: panes 1 and 2. -/
def oneSplitState : SysState := (splitPane exHome exProbe oneTabState 1 "vertical").2

/-- One tab, pane 1 split twice: pane map order [1, 2, 3], layout tree
`split(split(1, 3), 2)`. -/
def twoSplitState : SysState := (splitPane exHome exProbe oneSplitState 1 "vertical").2

/-- `twoSplitState` with pane 1 focused (the user clicked it). -/
def threePaneFocus1 : SysState := focusPane twoSplitState 1

/-- Two tabs, one pane each: tab 1/pane 1, tab 2/pane 2; tab 2 active,
pane 2 focused. -/
def twoTabState : SysState := (createTab exHome exProbe oneTabState).2

/-- Three tabs, one pane each; tab 3 active. -/
def threeTabState : SysState := (createTab exHome exProbe twoTabState).2

/-- Bounding boxes putting pane 1's center at x=0, pane 2's at x=100 and
pane 3's at x=−100, all at y=10. -/
def exampleRects : Nat → Rect := fun pid =>
  if pid == 1 then { rleft := -10, rtop := 0, rwidth := 20, rheight := 20 }
  else if pid == 2 then { rleft := 90, rtop := 0, rwidth := 20, rheight := 20 }
  else { rleft := -110, rtop := 0, rwidth := 20, rheight := 20 }

/-! ## Tree restoration lemmas (split followed by close) -/

theorem hasDirectPane_splitAtL (p : Nat) (hz : Bool) (pid : Nat)
    (cs : List DomNode) (hnc : containsPaneL pid cs = false) :
    hasDirectPane pid (splitAtL p hz pid cs) = false := by
  induction cs with
  | nil => simp [splitAtL, hasDirectPane]
  | cons c rest ih =>
      rw [containsPaneL, Bool.or_eq_false_iff] at hnc
      have hrest := ih hnc.2
      cases c with
      | pane q =>
          have hq : (q == pid) = false := by simpa [containsPane] using hnc.1
          by_cases hqp : (q == p) = true
          · simp [splitAtL, splitAt, hqp, hasDirectPane, List.any_cons] at hrest ⊢
            exact hrest
          · simp only [Bool.not_eq_true] at hqp
            simp [splitAtL, splitAt, hqp, hasDirectPane, List.any_cons, hq] at hrest ⊢
            exact hrest
      | divider =>
          simp [splitAtL, splitAt, hasDirectPane, List.any_cons] at hrest ⊢
          exact hrest
      | split o cs' =>
          simp [splitAtL, splitAt, hasDirectPane, List.any_cons] at hrest ⊢
          exact hrest

mutual

theorem closeNode_splitAt (p : Nat) (hz : Bool) (pid : Nat) :
    ∀ t : DomNode, containsPane pid t = false →
      closeNode pid (splitAt p hz pid t) = [t]
  | .pane q, hnc => by
      have hq : (q == pid) = false := by simpa [containsPane] using hnc
      by_cases hqp : (q == p) = true
      · simp [splitAt, hqp, closeNode, hasDirectPane, removeDirectPane, hq,
              isDivider, stripDividers, List.filter]
      · simp only [Bool.not_eq_true] at hqp
        simp [splitAt, hqp, closeNode, hq]
  | .divider, _ => by simp [splitAt, closeNode]
  | .split o cs, hnc => by
      have hcs : containsPaneL pid cs = false := by simpa [containsPane] using hnc
      have h1 := hasDirectPane_splitAtL p hz pid cs hcs
      have h2 := closeNodeL_splitAtL p hz pid cs hcs
      simp [splitAt, closeNode, h1, h2]

theorem closeNodeL_splitAtL (p : Nat) (hz : Bool) (pid : Nat) :
    ∀ cs : List DomNode, containsPaneL pid cs = false →
      closeNodeL pid (splitAtL p hz pid cs) = cs
  | [], _ => by simp [splitAtL, closeNodeL]
  | c :: cs, hnc => by
      rw [containsPaneL, Bool.or_eq_false_iff] at hnc
      have h1 := closeNode_splitAt p hz pid c hnc.1
      have h2 := closeNodeL_splitAtL p hz pid cs hnc.2
      simp [splitAtL, closeNodeL, h1, h2]

end

/-! ## Session-table and association-list helper lemmas -/

theorem mget_eq_none_iff (m : MState) (k : Nat) :
    mget m k = none ↔ ∀ e ∈ m.ptys, (e.1 == k) = false := by
  simp [mget, List.find?_eq_none]

theorem mget_mdel_self (m : MState) (k : Nat) : mget (mdel m k) k = none := by
  rw [mget_eq_none_iff]
  intro e he
  simp only [mdel] at he
  have := List.of_mem_filter he
  simpa using this

theorem mget_terminalDestroy_self (m : MState) (k : Nat) :
    mget (terminalDestroy m k) k = none := by
  unfold terminalDestroy
  cases h : mget m k with
  | none => simpa using h
  | some e => simpa using mget_mdel_self m k

theorem terminalDestroy_ptys (m : MState) (k : Nat) :
    (terminalDestroy m k).ptys = m.ptys.filter fun e => !(e.1 == k) := by
  unfold terminalDestroy
  cases h : mget m k with
  | some e => simp [mdel]
  | none =>
      have hall := (mget_eq_none_iff m k).mp h
      have : ∀ e ∈ m.ptys, (!(e.1 == k)) = true := by
        intro e he
        simp [hall e he]
      exact (List.filter_eq_self.mpr this).symm

theorem terminalDestroy_counter (m : MState) (k : Nat) :
    (terminalDestroy m k).counter = m.counter := by
  unfold terminalDestroy
  cases h : mget m k <;> simp [mdel]

theorem foldl_terminalDestroy_ptys (tids : List Nat) (m : MState) :
    (tids.foldl (fun acc t => terminalDestroy acc t) m).ptys
      = m.ptys.filter fun e => !(decide (e.1 ∈ tids)) := by
  induction tids generalizing m with
  | nil => simp
  | cons t ts ih =>
      rw [List.foldl_cons, ih, terminalDestroy_ptys, List.filter_filter]
      apply List.filter_congr
      intro e _
      by_cases h1 : e.1 = t <;> by_cases h2 : e.1 ∈ ts <;> simp [h1, h2]

theorem find?_treeSet_self (tr : List (Nat × List DomNode)) (k : Nat)
    (v : List DomNode) :
    (treeSet tr k v).find? (fun e => e.1 == k)
      = ((tr.find? fun e => e.1 == k).map fun e => (e.1, v)) := by
  induction tr with
  | nil => simp [treeSet]
  | cons e es ih =>
      unfold treeSet
      rw [List.map_cons]
      by_cases h : e.1 = k
      · have hb : (e.1 == k) = true := by simpa using h
        rw [if_pos hb]
        rw [List.find?_cons_of_pos (p := fun x : Nat × List DomNode => x.1 == k) _ (by simpa using h),
            List.find?_cons_of_pos (p := fun x : Nat × List DomNode => x.1 == k) _ hb]
        simp
      · have hb : (e.1 == k) = false := by simpa using h
        rw [if_neg (by simp [hb])]
        rw [List.find?_cons_of_neg (p := fun x : Nat × List DomNode => x.1 == k) _ (by simp [hb]),
            List.find?_cons_of_neg (p := fun x : Nat × List DomNode => x.1 == k) _ (by simp [hb])]
        unfold treeSet at ih
        exact ih

theorem treeSet_no_key (tr : List (Nat × List DomNode)) (k : Nat)
    (v : List DomNode) (h : ∀ e ∈ tr, (e.1 == k) = false) :
    treeSet tr k v = tr := by
  unfold treeSet
  conv_rhs => rw [← List.map_id tr]
  apply List.map_congr_left
  intro e he
  simp [h e he]

theorem treeSet_treeSet (tr : List (Nat × List DomNode)) (k : Nat)
    (a b : List DomNode) :
    treeSet (treeSet tr k a) k b = treeSet tr k b := by
  unfold treeSet
  rw [List.map_map]
  apply List.map_congr_left
  intro e _
  by_cases h : e.1 = k
  · simp [h]
  · simp [h]

theorem treeSet_find_getD (tr : List (Nat × List DomNode)) (k : Nat)
    (hnd : (tr.map Prod.fst).Nodup) :
    treeSet tr k (((tr.find? fun e => e.1 == k).map Prod.snd).getD []) = tr := by
  induction tr with
  | nil => rfl
  | cons e es ih =>
      rw [List.map_cons, List.nodup_cons] at hnd
      by_cases h : e.1 = k
      · have hb : (e.1 == k) = true := by simpa using h
        have hes : ∀ x ∈ es, (x.1 == k) = false := by
          intro x hx
          have hne : x.1 ≠ e.1 := by
            intro hxe
            exact hnd.1 (hxe ▸ List.mem_map_of_mem Prod.fst hx)
          have : x.1 ≠ k := fun hxk => hne (by rw [hxk, h])
          simpa using this
        rw [List.find?_cons_of_pos (p := fun x : Nat × List DomNode => x.1 == k) _ hb]
        show treeSet (e :: es) k e.2 = e :: es
        have htail := treeSet_no_key es k e.2 hes
        unfold treeSet
        unfold treeSet at htail
        rw [List.map_cons, if_pos hb, htail]
      · have hb : (e.1 == k) = false := by simpa using h
        rw [List.find?_cons_of_neg (p := fun x : Nat × List DomNode => x.1 == k) _ (by simp [hb])]
        have := ih hnd.2
        unfold treeSet
        unfold treeSet at this
        rw [List.map_cons, if_neg (by simp [hb]), this]

/-! ## Field-preservation lemmas for the renderer operations -/

theorem focusPane_m (s : SysState) (pid : Nat) : (focusPane s pid).m = s.m := by
  unfold focusPane; cases paneGet s pid <;> rfl

theorem focusPane_panes (s : SysState) (pid : Nat) :
    (focusPane s pid).panes = s.panes := by
  unfold focusPane; cases paneGet s pid <;> rfl

theorem focusPane_trees (s : SysState) (pid : Nat) :
    (focusPane s pid).trees = s.trees := by
  unfold focusPane; cases paneGet s pid <;> rfl

theorem focusPane_tabs (s : SysState) (pid : Nat) :
    (focusPane s pid).tabs = s.tabs := by
  unfold focusPane; cases paneGet s pid <;> rfl

theorem focusPane_paneIdCounter (s : SysState) (pid : Nat) :
    (focusPane s pid).paneIdCounter = s.paneIdCounter := by
  unfold focusPane; cases paneGet s pid <;> rfl

theorem focusPane_tabIdCounter (s : SysState) (pid : Nat) :
    (focusPane s pid).tabIdCounter = s.tabIdCounter := by
  unfold focusPane; cases paneGet s pid <;> rfl

theorem focusPane_activeTabId (s : SysState) (pid : Nat) :
    (focusPane s pid).activeTabId = s.activeTabId := by
  unfold focusPane; cases paneGet s pid <;> rfl

theorem closePane_fields (s : SysState) (pid : Nat) (pane : PaneEntry)
    (hp : paneGet s pid = some pane) :
    (closePane s pid).m = terminalDestroy s.m pane.terminalId ∧
    (closePane s pid).panes = (s.panes.filter fun q => !(q.paneId == pid)) ∧
    (closePane s pid).trees
      = treeSet s.trees pane.tabId (closeNodeL pid (treeGet s pane.tabId)) ∧
    (closePane s pid).tabs = s.tabs ∧
    (closePane s pid).paneIdCounter = s.paneIdCounter ∧
    (closePane s pid).tabIdCounter = s.tabIdCounter ∧
    (closePane s pid).activeTabId = s.activeTabId := by
  simp only [closePane, hp]
  split
  · split
    · simp
    · simp [focusPane_m, focusPane_panes, focusPane_trees, focusPane_tabs,
            focusPane_paneIdCounter, focusPane_tabIdCounter, focusPane_activeTabId]
  · simp

theorem switchTab_fields (s : SysState) (t : Nat) :
    (switchTab s t).m = s.m ∧
    (switchTab s t).panes = s.panes ∧
    (switchTab s t).trees = s.trees ∧
    (switchTab s t).tabs = s.tabs ∧
    (switchTab s t).paneIdCounter = s.paneIdCounter ∧
    (switchTab s t).tabIdCounter = s.tabIdCounter := by
  simp only [switchTab]
  split
  · split
    · simp
    · simp [focusPane_m, focusPane_panes, focusPane_trees, focusPane_tabs,
            focusPane_paneIdCounter, focusPane_tabIdCounter]
  · simp

/-! ## C1: split immediately followed by close restores the tab -/

theorem splitPane_eq (homeDir : String) (probe : Nat → Option String)
    (s : SysState) (p : Nat) (direction : String) (pane : PaneEntry)
    (hp : paneGet s p = some pane) :
    splitPane homeDir probe s p direction
      = (some (s.paneIdCounter + 1), postSplitState homeDir probe s p direction pane) := by
  simp only [splitPane, hp, createPaneCore, createPtyProcess, postSplitState]

/-- C1: in any tab state where pane `p` is a leaf of its tab's layout tree,
`splitPane(p, direction)` immediately followed by `closePane` on the returned
new pane id restores the layout to exactly its pre-split shape: the new pane,
its session, the inserted split container and its divider are all gone, and
`p` occupies its original slot in its original parent (the tree, pane map and
session table are exactly the pre-split ones). Freshness of the allocated pane
and session ids and uniqueness of the per-tab tree keys are invariants of
reachable states, taken as hypotheses. -/
theorem split_then_close_restores (homeDir : String) (probe : Nat → Option String)
    (s : SysState) (p : Nat) (direction : String) (pane : PaneEntry)
    (hp : paneGet s p = some pane)
    (hleaf : containsPaneL p (treeGet s pane.tabId) = true)
    (hfreshPane : ∀ q ∈ s.panes, q.paneId ≠ s.paneIdCounter + 1)
    (hfreshTree : containsPaneL (s.paneIdCounter + 1) (treeGet s pane.tabId) = false)
    (hfreshM : ∀ k ∈ mkeys s.m, k ≠ s.m.counter + 1)
    (hnd : (s.trees.map Prod.fst).Nodup) :
    (splitPane homeDir probe s p direction).1 = some (s.paneIdCounter + 1) ∧
    (closePane (splitPane homeDir probe s p direction).2 (s.paneIdCounter + 1)).trees
      = s.trees ∧
    (closePane (splitPane homeDir probe s p direction).2 (s.paneIdCounter + 1)).panes
      = s.panes ∧
    (closePane (splitPane homeDir probe s p direction).2 (s.paneIdCounter + 1)).m.ptys
      = s.m.ptys ∧
    (closePane (splitPane homeDir probe s p direction).2 (s.paneIdCounter + 1)).tabs
      = s.tabs ∧
    paneGet (closePane (splitPane homeDir probe s p direction).2 (s.paneIdCounter + 1))
      (s.paneIdCounter + 1) = none ∧
    mget (closePane (splitPane homeDir probe s p direction).2 (s.paneIdCounter + 1)).m
      (s.m.counter + 1) = none := by
  rw [splitPane_eq homeDir probe s p direction pane hp]
  have hnone : s.panes.find? (fun q => q.paneId == s.paneIdCounter + 1) = none :=
    List.find?_eq_none.mpr fun q hq => by simpa using hfreshPane q hq
  have hfind : paneGet (postSplitState homeDir probe s p direction pane)
      (s.paneIdCounter + 1)
      = some { paneId := s.paneIdCounter + 1, tabId := pane.tabId
               terminalId := s.m.counter + 1, buffer := [] } := by
    unfold paneGet postSplitState
    rw [List.find?_append, hnone]
    simp
  obtain ⟨hm, hpanes, htrees, htabs, hpc, htc, hat⟩ :=
    closePane_fields (postSplitState homeDir probe s p direction pane)
      (s.paneIdCounter + 1) _ hfind
  have hpanesPost : (postSplitState homeDir probe s p direction pane).panes
      = s.panes ++ [{ paneId := s.paneIdCounter + 1, tabId := pane.tabId
                      terminalId := s.m.counter + 1, buffer := [] }] := rfl
  have hpanes' : (closePane (postSplitState homeDir probe s p direction pane)
      (s.paneIdCounter + 1)).panes = s.panes := by
    rw [hpanes, hpanesPost, List.filter_append]
    have hself : (s.panes.filter fun q => !(q.paneId == s.paneIdCounter + 1)) = s.panes :=
      List.filter_eq_self.mpr fun q hq => by simpa using hfreshPane q hq
    simp [hself]
  have hmself : (s.m.ptys.filter fun e => !(e.1 == s.m.counter + 1)) = s.m.ptys :=
    List.filter_eq_self.mpr fun e he => by
      simpa using hfreshM e.1 (List.mem_map_of_mem Prod.fst he)
  have hm' : (closePane (postSplitState homeDir probe s p direction pane)
      (s.paneIdCounter + 1)).m.ptys = s.m.ptys := by
    rw [hm, terminalDestroy_ptys]
    show (((postSplitState homeDir probe s p direction pane).m.ptys).filter
      fun e => !(e.1 == s.m.counter + 1)) = s.m.ptys
    rw [show (postSplitState homeDir probe s p direction pane).m.ptys
      = s.m.ptys ++ [(s.m.counter + 1,
          { cwd := match terminalGetCwd probe s.m pane.terminalId with
              | some c => if c = "" then homeDir else c
              | none => homeDir
            input := [], cols := 80, rows := 24 })] from rfl]
    rw [List.filter_append, hmself]
    simp
  have htg : treeGet (postSplitState homeDir probe s p direction pane) pane.tabId
      = splitAtL p (direction == "vertical") (s.paneIdCounter + 1)
          (treeGet s pane.tabId) := by
    unfold treeGet
    rw [show (postSplitState homeDir probe s p direction pane).trees
      = treeSet s.trees pane.tabId
          (splitAtL p (direction == "vertical") (s.paneIdCounter + 1)
            (treeGet s pane.tabId)) from rfl]
    rw [find?_treeSet_self]
    cases h : s.trees.find? (fun e => e.1 == pane.tabId) with
    | some e =>
        have h0 : treeGet s pane.tabId = e.2 := by unfold treeGet; rw [h]; rfl
        simp [h0]
    | none =>
        have h0 : treeGet s pane.tabId = [] := by unfold treeGet; rw [h]; rfl
        simp [h0, splitAtL]
  have htrees' : (closePane (postSplitState homeDir probe s p direction pane)
      (s.paneIdCounter + 1)).trees = s.trees := by
    rw [htrees, htg,
        closeNodeL_splitAtL p (direction == "vertical") (s.paneIdCounter + 1)
          (treeGet s pane.tabId) hfreshTree]
    rw [show (postSplitState homeDir probe s p direction pane).trees
      = treeSet s.trees pane.tabId
          (splitAtL p (direction == "vertical") (s.paneIdCounter + 1)
            (treeGet s pane.tabId)) from rfl]
    rw [treeSet_treeSet]
    show treeSet s.trees pane.tabId
      (((s.trees.find? fun e => e.1 == pane.tabId).map Prod.snd).getD []) = s.trees
    exact treeSet_find_getD s.trees pane.tabId hnd
  refine ⟨rfl, htrees', hpanes', hm', ?_, ?_, ?_⟩
  · rw [htabs]; rfl
  · unfold paneGet
    rw [hpanes']
    exact List.find?_eq_none.mpr fun q hq => by simpa using hfreshPane q hq
  · rw [hm]
    exact mget_terminalDestroy_self _ _

/-- Witness for C1 at a concrete state: one tab holding the single pane 1. -/
theorem split_then_close_restores_witness :
    paneGet oneTabState 1 = some { paneId := 1, tabId := 1, terminalId := 1, buffer := [] } ∧
    ((splitPane exHome exProbe oneTabState 1 "vertical").1
        = some (oneTabState.paneIdCounter + 1) ∧
      (closePane (splitPane exHome exProbe oneTabState 1 "vertical").2
          (oneTabState.paneIdCounter + 1)).trees = oneTabState.trees ∧
      (closePane (splitPane exHome exProbe oneTabState 1 "vertical").2
          (oneTabState.paneIdCounter + 1)).panes = oneTabState.panes ∧
      (closePane (splitPane exHome exProbe oneTabState 1 "vertical").2
          (oneTabState.paneIdCounter + 1)).m.ptys = oneTabState.m.ptys ∧
      (closePane (splitPane exHome exProbe oneTabState 1 "vertical").2
          (oneTabState.paneIdCounter + 1)).tabs = oneTabState.tabs ∧
      paneGet (closePane (splitPane exHome exProbe oneTabState 1 "vertical").2
          (oneTabState.paneIdCounter + 1)) (oneTabState.paneIdCounter + 1) = none ∧
      mget (closePane (splitPane exHome exProbe oneTabState 1 "vertical").2
          (oneTabState.paneIdCounter + 1)).m (oneTabState.m.counter + 1) = none) :=
  ⟨by decide,
   split_then_close_restores exHome exProbe oneTabState 1 "vertical"
     { paneId := 1, tabId := 1, terminalId := 1, buffer := [] }
     (by decide) (by decide) (by decide) (by decide) (by decide) (by decide)⟩

/-! ## C2: events for a destroyed session are dropped silently -/

theorem writeToFirstPaneWith_no_match (panes : List PaneEntry) (k : Nat) (d : String)
    (h : ∀ p ∈ panes, p.terminalId ≠ k) : writeToFirstPaneWith panes k d = panes := by
  induction panes with
  | nil => rfl
  | cons p rest ih =>
      unfold writeToFirstPaneWith
      rw [if_neg (by simpa using h p (List.mem_cons_self p rest))]
      rw [ih fun q hq => h q (List.mem_cons_of_mem p hq)]

/-- C2: once session `k` has been removed from the session table, a queued
`data(k, …)` event is dropped without error and without reaching any pane:
the main-process `onData` guard finds no entry after `terminal-destroy`
and sends nothing, and the renderer's `terminal-data` handler, finding no
pane bound to `k`, leaves the renderer state untouched. -/
theorem destroyed_session_data_dropped (m : MState) (k : Nat) (d : String)
    (s : SysState) (hs : ∀ p ∈ s.panes, p.terminalId ≠ k) :
    onDataMessage (terminalDestroy m k) k d = none ∧
    terminalDataHandler s k d = s := by
  constructor
  · unfold onDataMessage
    rw [mget_terminalDestroy_self]
  · unfold terminalDataHandler
    rw [writeToFirstPaneWith_no_match s.panes k d hs]

/-- Witness for C2: destroying live session 1 and then delivering `data(1, …)`
against a renderer with no pane bound to 1. -/
theorem destroyed_session_data_dropped_witness :
    (∀ p ∈ initState.panes, p.terminalId ≠ 1) ∧
    (onDataMessage (terminalDestroy oneTabState.m 1) 1 "hello" = none ∧
      terminalDataHandler initState 1 "hello" = initState) :=
  ⟨by decide, destroyed_session_data_dropped oneTabState.m 1 "hello" initState (by decide)⟩

/-! ## C3: exit auto-close happens iff a sibling pane exists -/

theorem paneCount_gt_one_iff (s : SysState) (pid : Nat) (p : PaneEntry)
    (hmem : p ∈ s.panes) (hpid : p.paneId = pid)
    (hnd : (s.panes.map PaneEntry.paneId).Nodup) :
    1 < getPaneCountForTab s p.tabId
      ↔ ∃ q ∈ s.panes, q.tabId = p.tabId ∧ q.paneId ≠ pid := by
  have hpl : p ∈ getPanesForTab s p.tabId :=
    List.mem_filter.mpr ⟨hmem, by simp⟩
  have hndl : ((getPanesForTab s p.tabId).map PaneEntry.paneId).Nodup :=
    hnd.sublist ((List.filter_sublist s.panes).map PaneEntry.paneId)
  constructor
  · intro hlen
    unfold getPaneCountForTab at hlen
    cases hl : getPanesForTab s p.tabId with
    | nil => rw [hl] at hlen; simp at hlen
    | cons a rest =>
        cases rest with
        | nil => rw [hl] at hlen; simp at hlen
        | cons b rest' =>
            rw [hl] at hndl
            have hab : a.paneId ≠ b.paneId := by
              have := (List.nodup_cons.mp hndl).1
              intro hcontra
              exact this (hcontra ▸ List.mem_cons_self b.paneId _)
            have ha : a ∈ s.panes ∧ a.tabId = p.tabId := by
              have : a ∈ getPanesForTab s p.tabId := by rw [hl]; exact List.mem_cons_self a _
              exact ⟨List.mem_of_mem_filter this, by simpa using List.of_mem_filter this⟩
            have hb : b ∈ s.panes ∧ b.tabId = p.tabId := by
              have : b ∈ getPanesForTab s p.tabId := by
                rw [hl]; exact List.mem_cons_of_mem a (List.mem_cons_self b rest')
              exact ⟨List.mem_of_mem_filter this, by simpa using List.of_mem_filter this⟩
            by_cases hapid : a.paneId = pid
            · exact ⟨b, hb.1, hb.2, fun hbpid => hab (by rw [hapid, hbpid])⟩
            · exact ⟨a, ha.1, ha.2, hapid⟩
  · rintro ⟨q, hq, hqt, hqp⟩
    have hql : q ∈ getPanesForTab s p.tabId := List.mem_filter.mpr ⟨hq, by simp [hqt]⟩
    have hqnep : q ≠ p := fun hqe => hqp (by rw [hqe, hpid])
    unfold getPaneCountForTab
    cases hl : getPanesForTab s p.tabId with
    | nil => rw [hl] at hpl; simp at hpl
    | cons a rest =>
        cases rest with
        | nil =>
            rw [hl] at hpl hql
            have h1 : p = a := by simpa using hpl
            have h2 : q = a := by simpa using hql
            exact absurd (h2.trans h1.symm) hqnep
        | cons b rest' => simp

/-- C3: when a session's process exits, the grace-period callback auto-closes
the owning pane iff the pane's tab still contains at least one other pane at
that moment; when the exited pane is the last pane of its tab, the state is
left entirely unchanged — the pane stays open. -/
theorem exit_grace_autoclose_iff (s : SysState) (pid : Nat) (p : PaneEntry)
    (hp : paneGet s pid = some p)
    (hnd : (s.panes.map PaneEntry.paneId).Nodup) :
    (paneGet (exitGraceStep s pid p.tabId) pid = none
       ↔ ∃ q ∈ s.panes, q.tabId = p.tabId ∧ q.paneId ≠ pid) ∧
    ((¬ ∃ q ∈ s.panes, q.tabId = p.tabId ∧ q.paneId ≠ pid)
       → exitGraceStep s pid p.tabId = s) := by
  have hmem : p ∈ s.panes := List.mem_of_find?_eq_some hp
  have hpid : p.paneId = pid := by simpa using List.find?_some hp
  have hiff := paneCount_gt_one_iff s pid p hmem hpid hnd
  by_cases hc : 1 < getPaneCountForTab s p.tabId
  · obtain ⟨-, hpanes, -, -, -, -, -⟩ := closePane_fields s pid p hp
    have hgone : paneGet (closePane s pid) pid = none := by
      unfold paneGet
      rw [hpanes]
      exact List.find?_eq_none.mpr fun q hq => by
        have := List.of_mem_filter hq
        simpa using this
    constructor
    · rw [show exitGraceStep s pid p.tabId = closePane s pid from if_pos hc]
      exact ⟨fun _ => hiff.mp hc, fun _ => hgone⟩
    · intro hno
      exact absurd (hiff.mp hc) hno
  · have heq : exitGraceStep s pid p.tabId = s := if_neg hc
    constructor
    · rw [heq, hp]
      constructor
      · intro hcontra; exact absurd hcontra (by simp)
      · intro hex; exact absurd (hiff.mpr hex) hc
    · intro _; exact heq

/-- Witness for C3 at concrete states: with a sibling present (`oneSplitState`)
the exited pane 1 is auto-closed; the last-pane case is covered by the iff. -/
theorem exit_grace_autoclose_iff_witness :
    paneGet oneSplitState 1 = some { paneId := 1, tabId := 1, terminalId := 1, buffer := [] } ∧
    ((paneGet (exitGraceStep oneSplitState 1 1) 1 = none
        ↔ ∃ q ∈ oneSplitState.panes, q.tabId = 1 ∧ q.paneId ≠ 1) ∧
      ((¬ ∃ q ∈ oneSplitState.panes, q.tabId = 1 ∧ q.paneId ≠ 1)
        → exitGraceStep oneSplitState 1 1 = oneSplitState)) :=
  ⟨by decide,
   exit_grace_autoclose_iff oneSplitState 1
     { paneId := 1, tabId := 1, terminalId := 1, buffer := [] } (by decide) (by decide)⟩

/-! ## C9: write and resize on an unknown session id are silent no-ops -/

/-- C9: a `terminal-input` or `terminal-resize` command naming a session id
absent from the session table (never created, destroyed, or exited) changes
nothing and raises nothing. -/
theorem stale_write_resize_noop (m : MState) (k : Nat) (d : String) (c r : Nat)
    (hk : mget m k = none) :
    terminalInput m k d = m ∧ terminalResize m k c r = m := by
  unfold terminalInput terminalResize
  rw [hk]
  exact ⟨rfl, rfl⟩

/-- Witness for C9: id 99 is not in the one-session table. -/
theorem stale_write_resize_noop_witness :
    mget oneTabState.m 99 = none ∧
    (terminalInput oneTabState.m 99 "ls" = oneTabState.m ∧
      terminalResize oneTabState.m 99 120 40 = oneTabState.m) :=
  ⟨by decide, stale_write_resize_noop oneTabState.m 99 "ls" 120 40 (by decide)⟩

/-! ## C8: new terminals inherit the source pane's cwd, falling back to home -/

theorem terminalGetCwd_ne_empty (probe : Nat → Option String) (m : MState)
    (tid : Nat) : terminalGetCwd probe m tid ≠ some "" := by
  unfold terminalGetCwd
  cases mget m tid with
  | none => simp
  | some e =>
      cases probe tid with
      | none => simp
      | some out => by_cases h : out = "" <;> simp [h]

theorem getFocusedPaneCwd_ne_empty (probe : Nat → Option String) (s : SysState) :
    getFocusedPaneCwd probe s ≠ some "" := by
  unfold getFocusedPaneCwd
  cases hf : s.focusedPaneId with
  | none => simp
  | some pid =>
      show getPaneCwd probe s pid ≠ some ""
      unfold getPaneCwd
      cases hp : paneGet s pid with
      | none => simp
      | some p =>
          show terminalGetCwd probe s.m p.terminalId ≠ some ""
          exact terminalGetCwd_ne_empty probe s.m p.terminalId

theorem mget_push (m : MState) (e : PtyEntry) (c' : Nat) (k : Nat)
    (hfresh : ∀ x ∈ mkeys m, x ≠ k) :
    mget { ptys := m.ptys ++ [(k, e)], counter := c' } k = some e := by
  unfold mget
  rw [show ({ ptys := m.ptys ++ [(k, e)], counter := c' } : MState).ptys
    = m.ptys ++ [(k, e)] from rfl]
  rw [List.find?_append,
      List.find?_eq_none.mpr fun q hq => by
        simpa using hfresh q.1 (List.mem_map_of_mem Prod.fst hq)]
  simp

/-- C8: every newly created terminal is spawned in the cwd inherited from its
source pane — the pane being split for `splitPane`, the focused pane for
`createTab` — when the live cwd query succeeds, and in the user's home
directory when the query returns null. -/
theorem new_terminal_inherits_cwd (homeDir : String) (probe : Nat → Option String)
    (s : SysState) (p : Nat) (direction : String) (pane : PaneEntry)
    (hp : paneGet s p = some pane)
    (hfreshM : ∀ k ∈ mkeys s.m, k ≠ s.m.counter + 1) :
    ((mget (splitPane homeDir probe s p direction).2.m (s.m.counter + 1)).map
        PtyEntry.cwd)
      = some ((terminalGetCwd probe s.m pane.terminalId).getD homeDir) ∧
    ((mget (createTab homeDir probe s).2.m (s.m.counter + 1)).map PtyEntry.cwd)
      = some ((getFocusedPaneCwd probe s).getD homeDir) := by
  constructor
  · rw [splitPane_eq homeDir probe s p direction pane hp]
    show (mget (postSplitState homeDir probe s p direction pane).m
      (s.m.counter + 1)).map PtyEntry.cwd = _
    rw [show (postSplitState homeDir probe s p direction pane).m
      = { ptys := s.m.ptys ++
            [(s.m.counter + 1,
              { cwd := match terminalGetCwd probe s.m pane.terminalId with
                  | some c => if c = "" then homeDir else c
                  | none => homeDir
                input := [], cols := 80, rows := 24 })]
          counter := s.m.counter + 1 } from rfl]
    rw [mget_push s.m _ _ _ hfreshM]
    have hne := terminalGetCwd_ne_empty probe s.m pane.terminalId
    cases hq : terminalGetCwd probe s.m pane.terminalId with
    | none => rfl
    | some c =>
        rw [hq] at hne
        have hc : ¬ c = "" := fun h => hne (by rw [h])
        simp [hc]
  · have hm : (createTab homeDir probe s).2.m
        = { ptys := s.m.ptys ++
              [(s.m.counter + 1,
                { cwd := match getFocusedPaneCwd probe s with
                    | some c => if c = "" then homeDir else c
                    | none => homeDir
                  input := [], cols := 80, rows := 24 })]
            counter := s.m.counter + 1 } := by
      unfold createTab
      rw [(switchTab_fields _ _).1]
      rfl
    rw [hm, mget_push s.m _ _ _ hfreshM]
    have hne := getFocusedPaneCwd_ne_empty probe s
    cases hq : getFocusedPaneCwd probe s with
    | none => rfl
    | some c =>
        rw [hq] at hne
        have hc : ¬ c = "" := fun h => hne (by rw [h])
        simp [hc]

/-- Witness for C8 at the one-tab state (the probe always fails, so the home
fallback is exercised). -/
theorem new_terminal_inherits_cwd_witness :
    paneGet oneTabState 1 = some { paneId := 1, tabId := 1, terminalId := 1, buffer := [] } ∧
    (((mget (splitPane exHome exProbe oneTabState 1 "vertical").2.m
          (oneTabState.m.counter + 1)).map PtyEntry.cwd)
        = some ((terminalGetCwd exProbe oneTabState.m 1).getD exHome) ∧
      ((mget (createTab exHome exProbe oneTabState).2.m
          (oneTabState.m.counter + 1)).map PtyEntry.cwd)
        = some ((getFocusedPaneCwd exProbe oneTabState).getD exHome)) :=
  ⟨by decide,
   new_terminal_inherits_cwd exHome exProbe oneTabState 1 "vertical"
     { paneId := 1, tabId := 1, terminalId := 1, buffer := [] } (by decide) (by decide)⟩

/-! ## C10: session ids strictly increase and are never reused -/

theorem mkeys_terminalInput (m : MState) (id : Nat) (d : String) :
    mkeys (terminalInput m id d) = mkeys m := by
  unfold terminalInput
  cases h : mget m id with
  | none => rfl
  | some e =>
      show (m.ptys.map _).map Prod.fst = m.ptys.map Prod.fst
      rw [List.map_map]
      apply List.map_congr_left
      intro x _
      by_cases hx : x.1 = id <;> simp [hx]

theorem mkeys_terminalResize (m : MState) (id cc rr : Nat) :
    mkeys (terminalResize m id cc rr) = mkeys m := by
  unfold terminalResize
  cases h : mget m id with
  | none => rfl
  | some e =>
      show (m.ptys.map _).map Prod.fst = m.ptys.map Prod.fst
      rw [List.map_map]
      apply List.map_congr_left
      intro x _
      by_cases hx : x.1 = id <;> simp [hx]

theorem mkeys_terminalDestroy_subset (m : MState) (id : Nat) :
    mkeys (terminalDestroy m id) ⊆ mkeys m := by
  intro k hk
  rw [mkeys, terminalDestroy_ptys] at hk
  obtain ⟨e, he, hke⟩ := List.mem_map.mp hk
  exact hke ▸ List.mem_map_of_mem _ (List.mem_of_mem_filter he)

theorem onExitStep_ptys (m : MState) (id : Nat) (code : Int) :
    ((onExitStep m id code).1).ptys = m.ptys.filter fun e => !(e.1 == id) := by
  unfold onExitStep
  cases mget m id <;> simp [mdel]

theorem mkeys_onExitStep_subset (m : MState) (id : Nat) (code : Int) :
    mkeys (onExitStep m id code).1 ⊆ mkeys m := by
  intro k hk
  rw [mkeys, onExitStep_ptys] at hk
  obtain ⟨e, he, hke⟩ := List.mem_map.mp hk
  exact hke ▸ List.mem_map_of_mem _ (List.mem_of_mem_filter he)

theorem mstep_counter_le (homeDir : String) (m : MState) (cmd : MCmd) :
    m.counter ≤ ((mstep homeDir m cmd).1).counter := by
  cases cmd with
  | create cwd => exact Nat.le_succ m.counter
  | destroy id => rw [show (mstep homeDir m (.destroy id)).1 = terminalDestroy m id from rfl,
      terminalDestroy_counter]
  | input id d =>
      show m.counter ≤ (terminalInput m id d).counter
      unfold terminalInput
      cases mget m id <;> simp
  | resize id c r =>
      show m.counter ≤ (terminalResize m id c r).counter
      unfold terminalResize
      cases mget m id <;> simp
  | procExit id code =>
      show m.counter ≤ ((onExitStep m id code).1).counter
      unfold onExitStep
      cases mget m id <;> simp [mdel]

theorem mstep_inv (homeDir : String) (m : MState) (cmd : MCmd)
    (hinv : ∀ k ∈ mkeys m, k ≤ m.counter) :
    ∀ k ∈ mkeys ((mstep homeDir m cmd).1), k ≤ ((mstep homeDir m cmd).1).counter := by
  cases cmd with
  | create cwd =>
      intro k hk
      show k ≤ m.counter + 1
      rw [show mkeys ((mstep homeDir m (.create cwd)).1)
        = mkeys m ++ [m.counter + 1] from by simp [mstep, createPtyProcess, mkeys]] at hk
      rcases List.mem_append.mp hk with h | h
      · exact Nat.le_succ_of_le (hinv k h)
      · simp at h; omega
  | destroy id =>
      intro k hk
      rw [show ((mstep homeDir m (.destroy id)).1) = terminalDestroy m id from rfl] at hk ⊢
      rw [terminalDestroy_counter]
      exact hinv k (mkeys_terminalDestroy_subset m id hk)
  | input id d =>
      intro k hk
      rw [show ((mstep homeDir m (.input id d)).1) = terminalInput m id d from rfl] at hk ⊢
      rw [mkeys_terminalInput] at hk
      have : (terminalInput m id d).counter = m.counter := by
        unfold terminalInput; cases mget m id <;> rfl
      rw [this]
      exact hinv k hk
  | resize id cc rr =>
      intro k hk
      rw [show ((mstep homeDir m (.resize id cc rr)).1)
        = terminalResize m id cc rr from rfl] at hk ⊢
      rw [mkeys_terminalResize] at hk
      have : (terminalResize m id cc rr).counter = m.counter := by
        unfold terminalResize; cases mget m id <;> rfl
      rw [this]
      exact hinv k hk
  | procExit id code =>
      intro k hk
      rw [show ((mstep homeDir m (.procExit id code)).1)
        = (onExitStep m id code).1 from rfl] at hk ⊢
      have : ((onExitStep m id code).1).counter = m.counter := by
        unfold onExitStep; cases mget m id <;> simp [mdel]
      rw [this]
      exact hinv k (mkeys_onExitStep_subset m id code hk)

theorem mrun_ids (homeDir : String) (cmds : List MCmd) :
    ∀ m : MState, (∀ k ∈ mkeys m, k ≤ m.counter) →
      List.Pairwise (· < ·) (mrun homeDir m cmds).2 ∧
      (∀ i ∈ (mrun homeDir m cmds).2, m.counter < i) ∧
      (∀ k ∈ mkeys (mrun homeDir m cmds).1, k ≤ ((mrun homeDir m cmds).1).counter) ∧
      m.counter ≤ ((mrun homeDir m cmds).1).counter := by
  induction cmds with
  | nil =>
      intro m hinv
      exact ⟨List.Pairwise.nil, by simp [mrun], by simpa [mrun] using hinv, le_refl _⟩
  | cons cmd cs ih =>
      intro m hinv
      obtain ⟨hpw, hgt, hinv', hmono'⟩ :=
        ih ((mstep homeDir m cmd).1) (mstep_inv homeDir m cmd hinv)
      have h1 : (mrun homeDir m (cmd :: cs)).1
          = (mrun homeDir ((mstep homeDir m cmd).1) cs).1 := rfl
      have h2 : (mrun homeDir m (cmd :: cs)).2
          = (match (mstep homeDir m cmd).2 with | some i => [i] | none => []) ++
              (mrun homeDir ((mstep homeDir m cmd).1) cs).2 := rfl
      have hcstep : ((mstep homeDir m cmd).1).counter = m.counter ∨
          ((mstep homeDir m cmd).1).counter = m.counter + 1 := by
        cases cmd with
        | create cwd => exact Or.inr rfl
        | destroy id =>
            refine Or.inl ?_
            rw [show ((mstep homeDir m (.destroy id)).1) = terminalDestroy m id from rfl,
                terminalDestroy_counter]
        | input id d =>
            refine Or.inl ?_
            show (terminalInput m id d).counter = m.counter
            unfold terminalInput; cases mget m id <;> rfl
        | resize id cc rr =>
            refine Or.inl ?_
            show (terminalResize m id cc rr).counter = m.counter
            unfold terminalResize; cases mget m id <;> rfl
        | procExit id code =>
            refine Or.inl ?_
            show ((onExitStep m id code).1).counter = m.counter
            unfold onExitStep; cases mget m id <;> simp [mdel]
      have hmono : m.counter ≤ ((mrun homeDir m (cmd :: cs)).1).counter := by
        rw [h1]
        rcases hcstep with h | h <;> omega
      refine ⟨?_, ?_, by rw [h1]; exact hinv', hmono⟩
      · rw [h2]
        cases cmd with
        | create cwd =>
            rw [show (match (mstep homeDir m (MCmd.create cwd)).2 with
              | some i => [i] | none => []) = [m.counter + 1] from rfl]
            rw [List.cons_append, List.nil_append]
            refine List.pairwise_cons.mpr ⟨fun i hi => ?_, hpw⟩
            have := hgt i hi
            have hc : ((mstep homeDir m (MCmd.create cwd)).1).counter
              = m.counter + 1 := rfl
            omega
        | destroy id => exact hpw
        | input id d => exact hpw
        | resize id cc rr => exact hpw
        | procExit id code => exact hpw
      · rw [h2]
        intro i hi
        cases cmd with
        | create cwd =>
            rw [show (match (mstep homeDir m (MCmd.create cwd)).2 with
              | some i => [i] | none => []) = [m.counter + 1] from rfl] at hi
            rcases List.mem_append.mp hi with h | h
            · simp at h; omega
            · have := hgt i h
              have hc : ((mstep homeDir m (MCmd.create cwd)).1).counter
                = m.counter + 1 := rfl
              omega
        | destroy id =>
            rw [show (match (mstep homeDir m (MCmd.destroy id)).2 with
              | some i => [i] | none => []) = ([] : List Nat) from rfl,
              List.nil_append] at hi
            have := hgt i hi
            rcases hcstep with h | h <;> omega
        | input id d =>
            rw [show (match (mstep homeDir m (MCmd.input id d)).2 with
              | some i => [i] | none => []) = ([] : List Nat) from rfl,
              List.nil_append] at hi
            have := hgt i hi
            rcases hcstep with h | h <;> omega
        | resize id cc rr =>
            rw [show (match (mstep homeDir m (MCmd.resize id cc rr)).2 with
              | some i => [i] | none => []) = ([] : List Nat) from rfl,
              List.nil_append] at hi
            have := hgt i hi
            rcases hcstep with h | h <;> omega
        | procExit id code =>
            rw [show (match (mstep homeDir m (MCmd.procExit id code)).2 with
              | some i => [i] | none => []) = ([] : List Nat) from rfl,
              List.nil_append] at hi
            have := hgt i hi
            rcases hcstep with h | h <;> omega

/-- C10: along any command sequence served by the main process from its
initial state, the ids returned by `createPtyProcess` are strictly increasing
(hence never reused), every id in the session table is bounded by the counter,
and destroy / exit / input / resize never add entries to the table — so a
stale id can never denote a different, later-created session. -/
theorem session_ids_never_reused (homeDir : String) (cmds : List MCmd) :
    List.Pairwise (· < ·) (mrun homeDir initM cmds).2 ∧
    (∀ k ∈ mkeys (mrun homeDir initM cmds).1,
      k ≤ ((mrun homeDir initM cmds).1).counter) ∧
    (∀ (m : MState) (id : Nat) (code : Int),
      mkeys (onExitStep m id code).1 ⊆ mkeys m) ∧
    (∀ (m : MState) (id : Nat), mkeys (terminalDestroy m id) ⊆ mkeys m) ∧
    (∀ (m : MState) (id : Nat) (d : String), mkeys (terminalInput m id d) = mkeys m) ∧
    (∀ (m : MState) (id cc rr : Nat), mkeys (terminalResize m id cc rr) = mkeys m) := by
  obtain ⟨hpw, _, hinv, _⟩ := mrun_ids homeDir cmds initM (by simp [initM, mkeys])
  exact ⟨hpw, hinv, mkeys_onExitStep_subset, mkeys_terminalDestroy_subset,
    mkeys_terminalInput, mkeys_terminalResize⟩

/-- Witness for C10 on a concrete trace: create, destroy the id, create again —
the second create returns a fresh, larger id. -/
theorem session_ids_never_reused_witness :
    List.Pairwise (· < ·)
      (mrun exHome initM [MCmd.create none, MCmd.destroy 1, MCmd.create none]).2 ∧
    (mrun exHome initM [MCmd.create none, MCmd.destroy 1, MCmd.create none]).2 = [1, 2] :=
  ⟨(session_ids_never_reused exHome
      [MCmd.create none, MCmd.destroy 1, MCmd.create none]).1,
   by decide⟩

/-! ## C7: closing a tab destroys exactly its sessions -/

theorem filter_treeSet_ne (tr : List (Nat × List DomNode)) (k : Nat)
    (v : List DomNode) :
    ((treeSet tr k v).filter fun e => !(e.1 == k))
      = tr.filter fun e => !(e.1 == k) := by
  unfold treeSet
  induction tr with
  | nil => rfl
  | cons e es ih =>
      rw [List.map_cons]
      by_cases h : e.1 = k
      · have hb : (e.1 == k) = true := by simpa using h
        rw [if_pos hb]
        rw [List.filter_cons_of_neg (by simp [hb]), List.filter_cons_of_neg (by simp [hb])]
        exact ih
      · have hb : (e.1 == k) = false := by simpa using h
        rw [if_neg (by simp [hb])]
        rw [List.filter_cons_of_pos (by simp [hb]), List.filter_cons_of_pos (by simp [hb])]
        rw [ih]

/-- C7: `closeTab(t)` on an existing tab `t` signals window-close and changes
nothing when `t` is the last remaining tab; otherwise it returns no signal,
removes from the session table exactly the sessions of `t`'s panes, removes
exactly `t`'s panes, tab entry and layout tree, and leaves every other tab's
panes and sessions untouched. -/
theorem closeTab_spec (s : SysState) (t : Nat) (ht : t ∈ s.tabs) :
    (s.tabs.length = 1 → closeTab s t = (true, s)) ∧
    (2 ≤ s.tabs.length →
      (closeTab s t).1 = false ∧
      ((closeTab s t).2).m.ptys
        = (s.m.ptys.filter fun e =>
            !(decide (e.1 ∈ (getPanesForTab s t).map PaneEntry.terminalId))) ∧
      ((closeTab s t).2).panes = (s.panes.filter fun p => !(p.tabId == t)) ∧
      ((closeTab s t).2).tabs = (s.tabs.filter fun x => !(x == t)) ∧
      ((closeTab s t).2).trees = (s.trees.filter fun e => !(e.1 == t))) := by
  have hc : s.tabs.contains t = true := by simpa using ht
  constructor
  · intro hlen
    unfold closeTab
    rw [if_pos hc, if_pos (by omega)]
  · intro hlen
    have hm2 : (postCloseTabState s t).m.ptys
        = (s.m.ptys.filter fun e =>
            !(decide (e.1 ∈ (getPanesForTab s t).map PaneEntry.terminalId))) := by
      show ((getPanesForTab s t).foldl
        (fun mm p => terminalDestroy mm p.terminalId) s.m).ptys = _
      rw [← List.foldl_map PaneEntry.terminalId (fun acc tid => terminalDestroy acc tid)
        (getPanesForTab s t) s.m]
      exact foldl_terminalDestroy_ptys _ s.m
    have hp2 : (postCloseTabState s t).panes
        = (s.panes.filter fun p => !(p.tabId == t)) := rfl
    have ht2 : (postCloseTabState s t).tabs
        = (s.tabs.filter fun x => !(x == t)) := rfl
    have htr2 : (postCloseTabState s t).trees
        = (s.trees.filter fun e => !(e.1 == t)) := by
      show ((treeSet s.trees t (removePanesL (treeGet s t))).filter
        fun e => !(e.1 == t)) = _
      exact filter_treeSet_ne s.trees t _
    unfold closeTab
    rw [if_pos hc, if_neg (by omega)]
    by_cases ha : s.activeTabId = some t
    · rw [if_pos ha]
      cases hgl : (postCloseTabState s t).tabs.getLast? with
      | none => exact ⟨rfl, hm2, hp2, ht2, htr2⟩
      | some t' =>
          obtain ⟨f1, f2, f3, f4, -, -⟩ := switchTab_fields (postCloseTabState s t) t'
          refine ⟨rfl, ?_, ?_, ?_, ?_⟩
          · show (switchTab (postCloseTabState s t) t').m.ptys = _
            rw [f1]; exact hm2
          · show (switchTab (postCloseTabState s t) t').panes = _
            rw [f2]; exact hp2
          · show (switchTab (postCloseTabState s t) t').tabs = _
            rw [f4]; exact ht2
          · show (switchTab (postCloseTabState s t) t').trees = _
            rw [f3]; exact htr2
    · rw [if_neg ha]
      exact ⟨rfl, hm2, hp2, ht2, htr2⟩

/-- Witness for C7: closing tab 2 of three tabs destroys exactly tab 2's
session and leaves tabs 1 and 3 alone; closing the only tab of the one-tab
state signals window-close and changes nothing. -/
theorem closeTab_spec_witness :
    2 ∈ threeTabState.tabs ∧
    ((threeTabState.tabs.length = 1 → closeTab threeTabState 2 = (true, threeTabState)) ∧
     (2 ≤ threeTabState.tabs.length →
       (closeTab threeTabState 2).1 = false ∧
       ((closeTab threeTabState 2).2).m.ptys
         = (threeTabState.m.ptys.filter fun e =>
             !(decide (e.1 ∈ (getPanesForTab threeTabState 2).map PaneEntry.terminalId))) ∧
       ((closeTab threeTabState 2).2).panes
         = (threeTabState.panes.filter fun p => !(p.tabId == 2)) ∧
       ((closeTab threeTabState 2).2).tabs
         = (threeTabState.tabs.filter fun x => !(x == 2)) ∧
       ((closeTab threeTabState 2).2).trees
         = (threeTabState.trees.filter fun e => !(e.1 == 2)))) ∧
    (oneTabState.tabs.length = 1 → closeTab oneTabState 1 = (true, oneTabState)) :=
  ⟨by decide, closeTab_spec threeTabState 2 (by decide),
   (closeTab_spec oneTabState 1 (by decide)).1⟩

/-! ## C6: what switchTab really changes -/

/-- C6 counterexample: `switchTab` does not leave the focused-pane state
unchanged. In the two-tab state pane 2 (of tab 2) is focused; switching to
tab 1 refocuses pane 1. -/
theorem switchTab_changes_focus_counterexample :
    twoTabState.focusedPaneId = some 2 ∧
    (switchTab twoTabState 1).focusedPaneId = some 1 ∧
    (switchTab twoTabState 1).focusedPaneId ≠ twoTabState.focusedPaneId := by
  refine ⟨by decide, by decide, by decide⟩

theorem find?_key_map_ne (l : List (Nat × PtyEntry)) (tid k : Nat)
    (f : PtyEntry → PtyEntry) (hne : k ≠ tid) :
    ((l.map fun e => if e.1 == tid then (e.1, f e.2) else e).find? fun e => e.1 == k)
      = l.find? fun e => e.1 == k := by
  induction l with
  | nil => rfl
  | cons e es ih =>
      rw [List.map_cons]
      by_cases h1 : e.1 = tid
      · have hb : (e.1 == tid) = true := by simpa using h1
        rw [if_pos hb]
        have hk : (e.1 == k) = false := by simp [h1, Ne.symm hne]
        rw [List.find?_cons_of_neg (p := fun e : Nat × PtyEntry => e.1 == k) _ (by simp [hk]),
            List.find?_cons_of_neg (p := fun e : Nat × PtyEntry => e.1 == k) _ (by simp [hk])]
        exact ih
      · have hb : (e.1 == tid) = false := by simpa using h1
        rw [if_neg (by simp [hb])]
        by_cases h2 : e.1 = k
        · rw [List.find?_cons_of_pos (p := fun e : Nat × PtyEntry => e.1 == k) _ (by simpa using h2),
              List.find?_cons_of_pos (p := fun e : Nat × PtyEntry => e.1 == k) _ (by simpa using h2)]
        · rw [List.find?_cons_of_neg (p := fun e : Nat × PtyEntry => e.1 == k) _ (by simpa using h2),
              List.find?_cons_of_neg (p := fun e : Nat × PtyEntry => e.1 == k) _ (by simpa using h2)]
          exact ih

theorem mget_terminalResize_ne (m : MState) (tid cc rr k : Nat) (hne : k ≠ tid) :
    mget (terminalResize m tid cc rr) k = mget m k := by
  unfold terminalResize
  cases h : mget m tid with
  | none => rfl
  | some e =>
      unfold mget
      exact congrArg (Option.map Prod.snd)
        (find?_key_map_ne m.ptys tid k
          (fun x => { x with cols := cc, rows := rr }) hne)

theorem mget_foldl_resize_not_mem (l : List PaneEntry) (fit : Nat → Nat × Nat)
    (m : MState) (k : Nat) (hk : k ∉ l.map PaneEntry.terminalId) :
    mget (l.foldl (fun mm p =>
      terminalResize mm p.terminalId (fit p.paneId).1 (fit p.paneId).2) m) k
      = mget m k := by
  induction l generalizing m with
  | nil => rfl
  | cons p rest ih =>
      rw [List.foldl_cons]
      rw [ih _ fun hmem => hk (List.mem_cons_of_mem _ hmem)]
      exact mget_terminalResize_ne m p.terminalId _ _ k
        fun hke => hk (hke ▸ List.mem_cons_self _ _)

/-- C6 (amended): for an existing tab `t`, `switchTab(t)` sets the active-tab
pointer to `t` and moves the single global focused-pane pointer to `t`'s first
pane in pane-map order when `t` has panes (the spec's claim that focused-pane
state is unchanged fails, see the counterexample); every layout tree, every
pane's session binding and buffer, the tab list and the session table are
unchanged, and the deferred refit leaves every session of the now-inactive
tabs unaltered. -/
theorem switchTab_active_only (s : SysState) (t : Nat) (ht : t ∈ s.tabs) :
    (switchTab s t).m = s.m ∧
    (switchTab s t).panes = s.panes ∧
    (switchTab s t).trees = s.trees ∧
    (switchTab s t).tabs = s.tabs ∧
    (switchTab s t).activeTabId = some t ∧
    (match getPanesForTab s t with
      | [] => (switchTab s t).focusedPaneId = s.focusedPaneId
      | q :: _ => (switchTab s t).focusedPaneId = some q.paneId) ∧
    (∀ (fit : Nat → Nat × Nat) (k : Nat),
      k ∉ (getPanesForTab s t).map PaneEntry.terminalId →
      mget (refitAllPanesInTab fit (switchTab s t) t).m k = mget s.m k) := by
  have hc : s.tabs.contains t = true := by simpa using ht
  obtain ⟨f1, f2, f3, f4, -, -⟩ := switchTab_fields s t
  have hpt : getPanesForTab (switchTab s t) t = getPanesForTab s t := by
    unfold getPanesForTab
    rw [f2]
  refine ⟨f1, f2, f3, f4, ?_, ?_, ?_⟩
  · unfold switchTab
    rw [if_pos hc]
    cases hq : getPanesForTab { s with activeTabId := some t } t with
    | nil => rfl
    | cons q rest =>
        rw [focusPane_activeTabId]
  · cases hq : getPanesForTab s t with
    | nil =>
        show (switchTab s t).focusedPaneId = s.focusedPaneId
        unfold switchTab
        rw [if_pos hc,
            show getPanesForTab { s with activeTabId := some t } t
              = getPanesForTab s t from rfl, hq]
    | cons q rest =>
        show (switchTab s t).focusedPaneId = some q.paneId
        unfold switchTab
        rw [if_pos hc,
            show getPanesForTab { s with activeTabId := some t } t
              = getPanesForTab s t from rfl, hq]
        show (focusPane { s with activeTabId := some t } q.paneId).focusedPaneId
          = some q.paneId
        have hmem : q ∈ s.panes := by
          have hql : q ∈ getPanesForTab s t := by
            rw [hq]; exact List.mem_cons_self q rest
          exact List.mem_of_mem_filter hql
        have hsome : (paneGet { s with activeTabId := some t } q.paneId).isSome := by
          apply List.find?_isSome.mpr
          exact ⟨q, hmem, by simp⟩
        unfold focusPane
        cases hpg : paneGet { s with activeTabId := some t } q.paneId with
        | none => rw [hpg] at hsome; simp at hsome
        | some x => rfl
  · intro fit k hk
    show mget ((getPanesForTab (switchTab s t) t).foldl
      (fun mm p => terminalResize mm p.terminalId (fit p.paneId).1 (fit p.paneId).2)
      (switchTab s t).m) k = mget s.m k
    rw [hpt, f1]
    exact mget_foldl_resize_not_mem _ fit s.m k hk

/-! ## C5: focus-next cycles in creation order, not layout-DFS order -/

/-- C5 counterexample: with pane 1 split twice, the layout tree is
`split(split(1, 3), 2)` whose depth-first flattening is `[1, 3, 2]`, but the
pane map iterates in creation order `[1, 2, 3]`; from pane 1 `focusNextPane`
moves to pane 2 while the spec's depth-first order demands pane 3. -/
theorem focusNextPane_not_dfs_counterexample :
    (focusNextPane threePaneFocus1).focusedPaneId = some 2 ∧
    specDfsNext threePaneFocus1 = some 3 ∧
    (focusNextPane threePaneFocus1).focusedPaneId ≠ specDfsNext threePaneFocus1 := by
  refine ⟨by decide, by decide, by decide⟩

theorem findIdx?_map_paneId (l : List PaneEntry) (fid : Nat) (i : Nat)
    (hmem : fid ∈ l.map PaneEntry.paneId) :
    List.findIdx? (fun q => q == fid) (l.map PaneEntry.paneId) i
      = some ((l.findIdx fun p => p.paneId == fid) + i) := by
  induction l generalizing i with
  | nil => simp at hmem
  | cons p rest ih =>
      rw [List.map_cons, List.findIdx?_cons, List.findIdx_cons]
      by_cases h : p.paneId = fid
      · have hb : (p.paneId == fid) = true := by simpa using h
        rw [if_pos hb]
        simp [hb]
      · have hb : (p.paneId == fid) = false := by simpa using h
        rw [if_neg (by simp [hb])]
        have hmem' : fid ∈ rest.map PaneEntry.paneId := by
          rcases List.mem_map.mp hmem with ⟨x, hx, hfx⟩
          rcases List.mem_cons.mp hx with h1 | h1
          · exact absurd (h1 ▸ hfx) h
          · exact List.mem_map.mpr ⟨x, h1, hfx⟩
        rw [ih (i + 1) hmem']
        simp [hb]
        omega

/-- C5 (amended): `focusNextPane` moves focus to the cyclic successor of the
focused pane in the pane map's insertion (creation) order restricted to its
tab — `getPanesForTab`'s iteration order — not in the depth-first flattening
order of the layout tree (see the counterexample, where the two differ). -/
theorem focusNextPane_creation_order (s : SysState) (fid : Nat) (cp : PaneEntry)
    (hf : s.focusedPaneId = some fid) (hp : paneGet s fid = some cp)
    (hlen : 2 ≤ (getPanesForTab s cp.tabId).length) :
    focusNextPane s
      = match cyclicNext ((getPanesForTab s cp.tabId).map PaneEntry.paneId) fid with
        | none => s
        | some nid => focusPane s nid := by
  have hcpid : cp.paneId = fid := by simpa using List.find?_some hp
  have hmem : fid ∈ (getPanesForTab s cp.tabId).map PaneEntry.paneId := by
    apply List.mem_map.mpr
    refine ⟨cp, ?_, hcpid⟩
    exact List.mem_filter.mpr ⟨List.mem_of_find?_eq_some hp, by simp⟩
  have hcn : cyclicNext ((getPanesForTab s cp.tabId).map PaneEntry.paneId) fid
      = ((getPanesForTab s cp.tabId).get?
          ((((getPanesForTab s cp.tabId).findIdx fun p => p.paneId == fid) + 1)
            % (getPanesForTab s cp.tabId).length)).map PaneEntry.paneId := by
    unfold cyclicNext
    rw [show List.findIdx? (fun q => q == fid)
          ((getPanesForTab s cp.tabId).map PaneEntry.paneId)
        = some ((getPanesForTab s cp.tabId).findIdx fun p => p.paneId == fid) from by
      simpa using findIdx?_map_paneId (getPanesForTab s cp.tabId) fid 0 hmem]
    show (List.map PaneEntry.paneId (getPanesForTab s cp.tabId)).get?
        (((List.findIdx (fun p => p.paneId == fid) (getPanesForTab s cp.tabId)) + 1)
          % (List.map PaneEntry.paneId (getPanesForTab s cp.tabId)).length)
      = ((getPanesForTab s cp.tabId).get?
          ((((getPanesForTab s cp.tabId).findIdx fun p => p.paneId == fid) + 1)
            % (getPanesForTab s cp.tabId).length)).map PaneEntry.paneId
    rw [List.length_map, List.get?_eq_getElem?, List.get?_eq_getElem?,
        List.getElem?_map]
  simp only [focusNextPane, hf, hp]
  rw [if_neg (by omega)]
  rw [hcn]
  cases hg : (getPanesForTab s cp.tabId).get?
      ((((getPanesForTab s cp.tabId).findIdx fun p => p.paneId == fid) + 1)
        % (getPanesForTab s cp.tabId).length) with
  | none => rfl
  | some q => rfl

/-- Witness for C5's amended theorem at the three-pane state focused on
pane 1: the next pane in creation order is pane 2. -/
theorem focusNextPane_creation_order_witness :
    paneGet threePaneFocus1 1
      = some { paneId := 1, tabId := 1, terminalId := 1, buffer := [] } ∧
    (focusNextPane threePaneFocus1
      = match cyclicNext ((getPanesForTab threePaneFocus1 1).map PaneEntry.paneId) 1 with
        | none => threePaneFocus1
        | some nid => focusPane threePaneFocus1 nid) ∧
    (focusNextPane threePaneFocus1).focusedPaneId = some 2 :=
  ⟨by decide,
   focusNextPane_creation_order threePaneFocus1 1
     { paneId := 1, tabId := 1, terminalId := 1, buffer := [] }
     (by decide) (by decide) (by decide),
   by decide⟩

/-! ## C4: focusDirection implements the spec's selection algorithm -/

theorem length_le_one_mem {α : Type} (l : List α) (a : α) (hlen : l.length ≤ 1)
    (ha : a ∈ l) : l = [a] := by
  cases l with
  | nil => simp at ha
  | cons x xs =>
      cases xs with
      | nil => rw [List.mem_singleton.mp ha]
      | cons y ys => simp at hlen

theorem dirEligible_spec (rects : Nat → Rect) (fid : Nat) (direction : Dir)
    (cur : Pos) (p : PaneEntry)
    (hx : cur.x = (specCenter rects fid).1) (hy : cur.y = (specCenter rects fid).2) :
    dirEligible direction cur (paneCenterPos rects p)
      = specEligibleB rects fid direction p := by
  cases direction <;>
    simp [dirEligible, paneCenterPos, specEligibleB, specDelta, specCenter, hx, hy]

theorem dirScore_spec (rects : Nat → Rect) (fid : Nat) (direction : Dir)
    (cur : Pos) (p : PaneEntry)
    (hx : cur.x = (specCenter rects fid).1) (hy : cur.y = (specCenter rects fid).2) :
    dirScore direction cur (paneCenterPos rects p)
      = specScoreQ rects fid direction p := by
  cases direction <;>
    simp [dirScore, paneCenterPos, specScoreQ, specDelta, specCenter, hx, hy]

theorem scanCandidates_eq_foldl (fid : Nat) (direction : Dir) (cur : Pos)
    (ps : List Pos) : ∀ acc : Option (Nat × ℚ),
    scanCandidates fid direction cur ps acc
      = ((ps.filter fun p => !(p.paneId == fid) && dirEligible direction cur p).map
          fun p => (p.paneId, dirScore direction cur p)).foldl pickMin acc := by
  induction ps with
  | nil => intro acc; rfl
  | cons p rest ih =>
      intro acc
      by_cases hfid : (p.paneId == fid) = true
      · rw [show scanCandidates fid direction cur (p :: rest) acc
            = scanCandidates fid direction cur rest acc from by
          simp [scanCandidates, hfid]]
        rw [List.filter_cons_of_neg (by simp [hfid]), ih acc]
      · have hfid' : (p.paneId == fid) = false := by simpa using hfid
        by_cases helig : dirEligible direction cur p = true
        · have hstep : scanCandidates fid direction cur (p :: rest) acc
              = scanCandidates fid direction cur rest
                  (pickMin acc (p.paneId, dirScore direction cur p)) := by
            cases acc with
            | none => simp [scanCandidates, hfid', helig, pickMin]
            | some b =>
                by_cases hcmp : dirScore direction cur p < b.2
                · simp [scanCandidates, hfid', helig, pickMin, hcmp]
                · simp [scanCandidates, hfid', helig, pickMin, hcmp]
          rw [hstep, ih _, List.filter_cons_of_pos (by simp [hfid', helig]),
              List.map_cons, List.foldl_cons]
        · have helig' : dirEligible direction cur p = false := by simpa using helig
          have hstep : scanCandidates fid direction cur (p :: rest) acc
              = scanCandidates fid direction cur rest acc := by
            simp [scanCandidates, hfid', helig']
          rw [hstep, List.filter_cons_of_neg (by simp [hfid', helig']), ih acc]

/-- C4: `focusDirection` computes exactly the spec's selection — candidates
are the other panes of the focused pane's tab in iteration order, a candidate
is eligible iff its primary-axis center-to-center delta strictly exceeds the
10-unit dead zone in the requested direction, its score is
|primary| + 0.5·|cross|, the minimum-score eligible candidate is focused with
ties to the first-encountered, and focus is unchanged when no candidate is
eligible; in particular, moving right from a pane centered at x=0 with
siblings at x=100 and x=−100 focuses the x=100 pane. -/
theorem focusDirection_matches_spec :
    (∀ (rects : Nat → Rect) (s : SysState) (direction : Dir),
      focusDirection rects s direction
        = match specFocusTarget rects s direction with
          | none => s
          | some b => focusPane s b) ∧
    (focusDirection exampleRects threePaneFocus1 Dir.right).focusedPaneId = some 2 ∧
    specFocusTarget exampleRects threePaneFocus1 Dir.right = some 2 := by
  have hgen : ∀ (rects : Nat → Rect) (s : SysState) (direction : Dir),
      focusDirection rects s direction
        = match specFocusTarget rects s direction with
          | none => s
          | some b => focusPane s b := by
    intro rects s direction
    cases hf : s.focusedPaneId with
    | none => simp only [focusDirection, specFocusTarget, hf]
    | some fid =>
        cases hp : paneGet s fid with
        | none => simp only [focusDirection, specFocusTarget, hf, hp]
        | some currentPane =>
            simp only [focusDirection, specFocusTarget, hf, hp]
            have hcpmem : currentPane ∈ s.panes := List.mem_of_find?_eq_some hp
            have hcpid : currentPane.paneId = fid := by simpa using List.find?_some hp
            have hcptab : currentPane ∈ getPanesForTab s currentPane.tabId :=
              List.mem_filter.mpr ⟨hcpmem, by simp⟩
            by_cases hlen : (getPanesForTab s currentPane.tabId).length ≤ 1
            · rw [if_pos hlen]
              have hsingle : getPanesForTab s currentPane.tabId = [currentPane] :=
                length_le_one_mem _ _ hlen hcptab
              rw [hsingle]
              simp [hcpid, firstMinScore]
            · rw [if_neg hlen]
              have hsomefind : (((getPanesForTab s currentPane.tabId).map
                  (paneCenterPos rects)).find? fun p => p.paneId == fid).isSome := by
                apply List.find?_isSome.mpr
                refine ⟨paneCenterPos rects currentPane, List.mem_map_of_mem _ hcptab, ?_⟩
                simp [paneCenterPos, hcpid]
              cases hfind : ((getPanesForTab s currentPane.tabId).map
                  (paneCenterPos rects)).find? fun p => p.paneId == fid with
              | none => rw [hfind] at hsomefind; simp at hsomefind
              | some cur =>
                  obtain ⟨q0, hq0mem, hq0eq⟩ :=
                    List.mem_map.mp (List.mem_of_find?_eq_some hfind)
                  have hcurid : cur.paneId = fid := by
                    simpa using List.find?_some hfind
                  have hq0id : q0.paneId = fid := by
                    rw [← hcurid, ← hq0eq]; rfl
                  have hcurx : cur.x = (specCenter rects fid).1 := by
                    rw [← hq0eq]
                    show (specCenter rects q0.paneId).1 = (specCenter rects fid).1
                    rw [hq0id]
                  have hcury : cur.y = (specCenter rects fid).2 := by
                    rw [← hq0eq]
                    show (specCenter rects q0.paneId).2 = (specCenter rects fid).2
                    rw [hq0id]
                  show (match scanCandidates fid direction cur
                      ((getPanesForTab s currentPane.tabId).map (paneCenterPos rects))
                      none with
                    | none => s
                    | some best => focusPane s best.1) = _
                  rw [scanCandidates_eq_foldl fid direction cur _ none]
                  rw [List.filter_map, List.map_map]
                  have h1 : ((getPanesForTab s currentPane.tabId).filter
                        ((fun p => !(p.paneId == fid) && dirEligible direction cur p)
                          ∘ paneCenterPos rects))
                      = ((getPanesForTab s currentPane.tabId).filter
                          fun p => specEligibleB rects fid direction p
                            && !(p.paneId == fid)) := by
                    apply List.filter_congr
                    intro p _
                    show (!(p.paneId == fid)
                        && dirEligible direction cur (paneCenterPos rects p)) = _
                    rw [dirEligible_spec rects fid direction cur p hcurx hcury,
                        Bool.and_comm]
                  have h2 : (((getPanesForTab s currentPane.tabId).filter
                          fun p => specEligibleB rects fid direction p
                            && !(p.paneId == fid)).map
                        ((fun p : Pos => (p.paneId, dirScore direction cur p))
                          ∘ paneCenterPos rects))
                      = (((getPanesForTab s currentPane.tabId).filter
                          fun p => specEligibleB rects fid direction p
                            && !(p.paneId == fid)).map
                          fun p => (p.paneId, specScoreQ rects fid direction p)) := by
                    apply List.map_congr_left
                    intro p _
                    show (p.paneId, dirScore direction cur (paneCenterPos rects p)) = _
                    rw [dirScore_spec rects fid direction cur p hcurx hcury]
                  rw [h1, h2]
                  simp only [firstMinScore]
                  rw [List.filter_filter]
                  cases hres : (((getPanesForTab s currentPane.tabId).filter
                      fun p => specEligibleB rects fid direction p
                        && !(p.paneId == fid)).map
                        fun p => (p.paneId, specScoreQ rects fid direction p)).foldl
                      pickMin none with
                  | none => rfl
                  | some best => rfl
  have hspec : specFocusTarget exampleRects threePaneFocus1 Dir.right = some 2 := by
    have hfoc : threePaneFocus1.focusedPaneId = some 1 := by decide
    have hpg : paneGet threePaneFocus1 1
        = some { paneId := 1, tabId := 1, terminalId := 1, buffer := [] } := by decide
    have hply : getPanesForTab threePaneFocus1 1
        = [{ paneId := 1, tabId := 1, terminalId := 1, buffer := [] },
           { paneId := 2, tabId := 1, terminalId := 2, buffer := [] },
           { paneId := 3, tabId := 1, terminalId := 3, buffer := [] }] := by decide
    simp only [specFocusTarget, hfoc, hpg]
    rw [hply]
    norm_num [specEligibleB, specDelta, specCenter, exampleRects,
      firstMinScore, pickMin, List.filter]
  refine ⟨hgen, ?_, hspec⟩
  rw [hgen exampleRects threePaneFocus1 Dir.right, hspec]
  show (focusPane threePaneFocus1 2).focusedPaneId = some 2
  decide

/-- Witness for C6's amended theorem at the two-tab state. -/
theorem switchTab_active_only_witness :
    1 ∈ twoTabState.tabs ∧
    ((switchTab twoTabState 1).m = twoTabState.m ∧
      (switchTab twoTabState 1).panes = twoTabState.panes ∧
      (switchTab twoTabState 1).trees = twoTabState.trees ∧
      (switchTab twoTabState 1).tabs = twoTabState.tabs ∧
      (switchTab twoTabState 1).activeTabId = some 1 ∧
      (match getPanesForTab twoTabState 1 with
        | [] => (switchTab twoTabState 1).focusedPaneId = twoTabState.focusedPaneId
        | q :: _ => (switchTab twoTabState 1).focusedPaneId = some q.paneId) ∧
      (∀ (fit : Nat → Nat × Nat) (k : Nat),
        k ∉ (getPanesForTab twoTabState 1).map PaneEntry.terminalId →
        mget (refitAllPanesInTab fit (switchTab twoTabState 1) 1).m k
          = mget twoTabState.m k)) :=
  ⟨by decide, switchTab_active_only twoTabState 1 (by decide)⟩

end HackerTerm
